import Mathlib

/-!
Verification development for the BNF counter-trend strategy engine
(`bnf_backtest_strategy.py`, `bnf_realtime_monitor.py`).

The embedding models pandas/NumPy float columns with exact rationals,
keeping the IEEE special values (`inf`, `-inf`, `NaN`) that the source
relies on (rolling windows that are not yet full, divisions by zero)
as explicit constructors of the type `F` below.  Dates are modelled as
integer day numbers; `(d2 - d1)` corresponds to `(ts2 - ts1).days` on
pandas timestamps.
-/

namespace BNF

set_option maxRecDepth 100000

/-- An IEEE-754-style scalar as produced by a pandas float column: a finite
value (modelled exactly as a rational), `+inf`, `-inf`, or `NaN`. -/
inductive F where
  | fin (q : ℚ)
  | inf
  | ninf
  | nan
deriving DecidableEq

/-- IEEE addition on `F` (only the cases arising from the source's formulas
matter, but the definition is total and follows IEEE-754). -/
def F.add : F → F → F
  | nan, _ => nan
  | _, nan => nan
  | fin a, fin b => fin (a + b)
  | fin _, inf => inf
  | inf, fin _ => inf
  | fin _, ninf => ninf
  | ninf, fin _ => ninf
  | inf, inf => inf
  | ninf, ninf => ninf
  | inf, ninf => nan
  | ninf, inf => nan

/-- IEEE subtraction on `F`. -/
def F.sub : F → F → F
  | nan, _ => nan
  | _, nan => nan
  | fin a, fin b => fin (a - b)
  | fin _, inf => ninf
  | fin _, ninf => inf
  | inf, fin _ => inf
  | ninf, fin _ => ninf
  | inf, inf => nan
  | ninf, ninf => nan
  | inf, ninf => inf
  | ninf, inf => ninf

/-- IEEE multiplication on `F`. -/
def F.mul : F → F → F
  | nan, _ => nan
  | _, nan => nan
  | fin a, fin b => fin (a * b)
  | fin a, inf => if a = 0 then nan else if a > 0 then inf else ninf
  | inf, fin b => if b = 0 then nan else if b > 0 then inf else ninf
  | fin a, ninf => if a = 0 then nan else if a > 0 then ninf else inf
  | ninf, fin b => if b = 0 then nan else if b > 0 then ninf else inf
  | inf, inf => inf
  | ninf, ninf => inf
  | inf, ninf => ninf
  | ninf, inf => ninf

/-- IEEE division on `F`.  Division of a nonzero finite value by zero gives a
signed infinity (NumPy behaviour, with the zero produced as `+0.0`), and
`0/0` gives `NaN`. -/
def F.div : F → F → F
  | nan, _ => nan
  | _, nan => nan
  | fin a, fin b =>
      if b = 0 then (if a = 0 then nan else if a > 0 then inf else ninf)
      else fin (a / b)
  | fin _, inf => fin 0
  | fin _, ninf => fin 0
  | inf, fin b => if b ≥ 0 then inf else ninf
  | ninf, fin b => if b ≥ 0 then ninf else inf
  | inf, inf => nan
  | inf, ninf => nan
  | ninf, inf => nan
  | ninf, ninf => nan

/-- IEEE `≤` as a boolean: any comparison involving `NaN` is `false`
(this is exactly how pandas evaluates `series <= threshold`). -/
def F.fle : F → F → Bool
  | nan, _ => false
  | _, nan => false
  | fin a, fin b => decide (a ≤ b)
  | fin _, inf => true
  | fin _, ninf => false
  | inf, fin _ => false
  | ninf, fin _ => true
  | inf, inf => true
  | ninf, ninf => true
  | ninf, inf => true
  | inf, ninf => false

/-- IEEE `<` as a boolean: any comparison involving `NaN` is `false`. -/
def F.flt : F → F → Bool
  | nan, _ => false
  | _, nan => false
  | fin a, fin b => decide (a < b)
  | fin _, inf => true
  | fin _, ninf => false
  | inf, fin _ => false
  | ninf, fin _ => true
  | inf, inf => false
  | ninf, ninf => false
  | ninf, inf => true
  | inf, ninf => false

/-- IEEE `≥` as a boolean. -/
def F.fge (a b : F) : Bool := F.fle b a

/-- IEEE `>` as a boolean. -/
def F.fgt (a b : F) : Bool := F.flt b a

/-- Inject an optional rational (a possibly-NaN float cell) into `F`. -/
def oF : Option ℚ → F
  | some q => F.fin q
  | none => F.nan

/-- The trailing window of width `w` ending at index `i` (inclusive). -/
def window (w i : ℕ) (xs : List ℚ) : List ℚ := (xs.take (i + 1)).drop (i + 1 - w)

/-- `series.rolling(window=w).mean()` at index `i`: `NaN` (here `none`) until
the window is full, the plain average afterwards.  The inputs fed to it by the
pipeline are total (non-NaN) sequences, so `min_periods` never matters. -/
def rollingMean (w : ℕ) (xs : List ℚ) (i : ℕ) : Option ℚ :=
  if i + 1 < w then none else some ((window w i xs).sum / w)

/-- `series.rolling(window=w).max()` at index `i`. -/
def rollingMax (w : ℕ) (xs : List ℚ) (i : ℕ) : Option ℚ :=
  if i + 1 < w then none
  else
    match window w i xs with
    | [] => none
    | h :: t => some (t.foldl max h)

/-- `series.rolling(window=w).min()` at index `i`. -/
def rollingMin (w : ℕ) (xs : List ℚ) (i : ℕ) : Option ℚ :=
  if i + 1 < w then none
  else
    match window w i xs with
    | [] => none
    | h :: t => some (t.foldl min h)

/-- `series.ewm(span=s).mean()` with pandas defaults (`adjust=True`,
`min_periods=0`): `ema_i = num_i / den_i` with `num_i = x_i + (1-α)·num_{i-1}`,
`den_i = 1 + (1-α)·den_{i-1}`, `α = 2/(s+1)`; defined from the first row. -/
def ewmMeanList (span : ℕ) (xs : List ℚ) : List ℚ :=
  let α : ℚ := 2 / ((span : ℚ) + 1)
  (xs.foldl
    (fun (acc : ℚ × ℚ × List ℚ) x =>
      let num := x + (1 - α) * acc.1
      let den := 1 + (1 - α) * acc.2.1
      (num, den, acc.2.2 ++ [num / den]))
    (0, 0, [])).2.2

/-- `data['Close'].diff()` turned into the gain series of the RSI computation:
`delta.where(delta > 0, 0)`.  The first delta is `NaN`, and `NaN > 0` is
`False`, so index 0 becomes `0` — the sequence is total. -/
def gainSeq (closes : List ℚ) : List ℚ :=
  (List.range closes.length).map fun i =>
    if i = 0 then 0 else max (closes.getD i 0 - closes.getD (i - 1) 0) 0

/-- `-delta.where(delta < 0, 0)`: the loss series of the RSI computation. -/
def lossSeq (closes : List ℚ) : List ℚ :=
  (List.range closes.length).map fun i =>
    if i = 0 then 0 else max (closes.getD (i - 1) 0 - closes.getD i 0) 0

/-- `RSI = 100 - 100/(1 + RS)`, `RS = gain.rolling(p).mean()/loss.rolling(p).mean()`,
with the IEEE propagation the source leaves implicit: `g/0 = inf` for `g > 0`
(so RSI `= 100`), `0/0 = NaN` (so RSI is `NaN`), and `NaN` before the window
is full. -/
def rsiAt (p : ℕ) (closes : List ℚ) (i : ℕ) : F :=
  let rs := F.div (oF (rollingMean p (gainSeq closes) i)) (oF (rollingMean p (lossSeq closes) i))
  F.sub (F.fin 100) (F.div (F.fin 100) (F.add (F.fin 1) rs))

/-- `Williams %R = -100·(HighestHigh - Close)/(HighestHigh - LowestLow)` over the
trailing window, with IEEE zero-division semantics when the range is zero. -/
def williamsAt (p : ℕ) (highs lows closes : List ℚ) (i : ℕ) : F :=
  match rollingMax p highs i, rollingMin p lows i with
  | some hm, some lm => F.div (F.fin (-100 * (hm - closes.getD i 0))) (F.fin (hm - lm))
  | _, _ => F.nan

/-- `data['Close'] > data['Close'].shift(1)` at index `i` (row 0 compares
against `NaN`, hence `false`). -/
def closeUpAt (closes : List ℚ) (i : ℕ) : Bool :=
  if i = 0 then false else decide (closes.getD i 0 > closes.getD (i - 1) 0)

/-- `series.ewm(span=s).mean()` read at index `i`. -/
def emaAt (span : ℕ) (closes : List ℚ) (i : ℕ) : ℚ := (ewmMeanList span closes).getD i 0

/-- The `Volume_Ratio` column at index `i`: volume over its trailing simple
average, `NaN` until the volume window is full. -/
def volumeFracAt (w : ℕ) (volumes : List ℚ) (i : ℕ) : F :=
  F.div (F.fin (volumes.getD i 0)) (oF (rollingMean w volumes i))

/-- The `MA25_Ratio` column at index `i`: close over the long EMA. -/
def ma25FracAt (span : ℕ) (closes : List ℚ) (i : ℕ) : F :=
  F.div (F.fin (closes.getD i 0)) (F.fin (emaAt span closes i))

/-- The strategy parameter set written by `_setup_bnf_parameters` (the members
of the backtest/monitor classes that the indicator and simulation code read). -/
structure Config where
  rsi_period : ℕ
  williams_period : ℕ
  ema_short : ℕ
  ema_long : ℕ
  volume_ma_period : ℕ
  max_holding_days : ℤ
  ma_oversold_threshold : ℚ
  rsi_oversold : ℚ
  rsi_overbought : ℚ
  williams_oversold : ℚ
  williams_overbought : ℚ
  volume_threshold : ℚ
deriving DecidableEq

/-- The "balanced" preset (`strategy_mode == "balanced"`). -/
def balancedConfig : Config where
  rsi_period := 14
  williams_period := 14
  ema_short := 20
  ema_long := 25
  volume_ma_period := 20
  max_holding_days := 3
  ma_oversold_threshold := 4/5
  rsi_oversold := 35
  rsi_overbought := 65
  williams_oversold := -75
  williams_overbought := -25
  volume_threshold := 6/5

/-- One raw OHLCV bar (one row of the downloaded DataFrame), with its date as
an integer day number.  Raw fields are taken to be non-NaN here; the NaN cells
the simulator must skip are modelled at the simulator interface (`XRow`). -/
structure Bar where
  date : ℤ
  high : ℚ
  low : ℚ
  close : ℚ
  volume : ℚ
deriving DecidableEq

/-- A row of the DataFrame after `calculate_bnf_indicators`: the bar plus every
derived column the source writes. -/
structure IndRow where
  date : ℤ
  high : ℚ
  low : ℚ
  close : ℚ
  volume : ℚ
  rsi : F
  williamsR : F
  ema20 : ℚ
  ema25 : ℚ
  volumeMA : Option ℚ
  volumeFrac : F
  priceChangePct : F
  priceMA5 : Option ℚ
  ma25Frac : F
  ma25OversoldFlag : Bool
  rsiOversoldFlag : Bool
  rsiOverboughtFlag : Bool
  wOversoldFlag : Bool
  wOverboughtFlag : Bool
  buySignal : Bool
  sellSignal : Bool
deriving DecidableEq

/-- One annotated row, mirroring the column formulas of
`BNFCounterTrendBacktest.calculate_bnf_indicators` at index `i`.
(`volumeFrac`/`ma25Frac` are the source's `Volume_Ratio`/`MA25_Ratio`
columns, renamed.) -/
def mkIndRow (cfg : Config) (bars : List Bar) (i : ℕ) : IndRow :=
  let closes := bars.map (·.close)
  let highs := bars.map (·.high)
  let lows := bars.map (·.low)
  let volumes := bars.map (·.volume)
  let rsi := rsiAt cfg.rsi_period closes i
  let williams := williamsAt cfg.williams_period highs lows closes i
  let ema20 := emaAt cfg.ema_short closes i
  let ema25 := emaAt cfg.ema_long closes i
  let volumeMA := rollingMean cfg.volume_ma_period volumes i
  let volumeFrac := volumeFracAt cfg.volume_ma_period volumes i
  let priceChangePct :=
    if i = 0 then F.nan
    else F.mul (F.sub (F.div (F.fin (closes.getD i 0)) (F.fin (closes.getD (i - 1) 0))) (F.fin 1)) (F.fin 100)
  let priceMA5 := rollingMean 5 closes i
  let ma25Frac := ma25FracAt cfg.ema_long closes i
  let ma25Oversold := F.fle ma25Frac (F.fin cfg.ma_oversold_threshold)
  let rsiOversold := F.fle rsi (F.fin cfg.rsi_oversold)
  let rsiOverbought := F.fge rsi (F.fin cfg.rsi_overbought)
  let wOversold := F.fle williams (F.fin cfg.williams_oversold)
  let wOverbought := F.fge williams (F.fin cfg.williams_overbought)
  { date := (bars.map (·.date)).getD i 0
    high := highs.getD i 0
    low := lows.getD i 0
    close := closes.getD i 0
    volume := volumes.getD i 0
    rsi := rsi
    williamsR := williams
    ema20 := ema20
    ema25 := ema25
    volumeMA := volumeMA
    volumeFrac := volumeFrac
    priceChangePct := priceChangePct
    priceMA5 := priceMA5
    ma25Frac := ma25Frac
    ma25OversoldFlag := ma25Oversold
    rsiOversoldFlag := rsiOversold
    rsiOverboughtFlag := rsiOverbought
    wOversoldFlag := wOversold
    wOverboughtFlag := wOverbought
    buySignal :=
      (rsiOversold && F.fgt volumeFrac (F.fin cfg.volume_threshold)) ||
      (wOversold && F.fgt volumeFrac (F.fin cfg.volume_threshold)) ||
      (ma25Oversold && closeUpAt closes i && F.fgt volumeFrac (F.fin (11/10)))
    sellSignal :=
      rsiOverbought || wOverbought || F.fge ma25Frac (F.fin (11/10)) }

/-- `BNFCounterTrendBacktest.calculate_bnf_indicators` (bnf_backtest_strategy.py,
lines 227-297): returns `none` (the un-annotated frame) when the series is
shorter than `max(rsi_period, williams_period, ema_long)`, otherwise every row
annotated with the indicator columns. -/
def calculate_bnf_indicators (cfg : Config) (bars : List Bar) : Option (List IndRow) :=
  if bars.length < max cfg.rsi_period (max cfg.williams_period cfg.ema_long) then none
  else some ((List.range bars.length).map (mkIndRow cfg bars))

/-- One annotated row, mirroring the column formulas of
`BNFRealtimeMonitor.calculate_bnf_indicators` (bnf_realtime_monitor.py,
lines 305-370) at index `i`.  The monitor's method body is line-for-line the
same computation as the backtester's. -/
def mkIndRowMonitor (cfg : Config) (bars : List Bar) (i : ℕ) : IndRow :=
  let closes := bars.map (·.close)
  let highs := bars.map (·.high)
  let lows := bars.map (·.low)
  let volumes := bars.map (·.volume)
  let rsi := rsiAt cfg.rsi_period closes i
  let williams := williamsAt cfg.williams_period highs lows closes i
  let ema20 := emaAt cfg.ema_short closes i
  let ema25 := emaAt cfg.ema_long closes i
  let volumeMA := rollingMean cfg.volume_ma_period volumes i
  let volumeFrac := volumeFracAt cfg.volume_ma_period volumes i
  let priceChangePct :=
    if i = 0 then F.nan
    else F.mul (F.sub (F.div (F.fin (closes.getD i 0)) (F.fin (closes.getD (i - 1) 0))) (F.fin 1)) (F.fin 100)
  let priceMA5 := rollingMean 5 closes i
  let ma25Frac := ma25FracAt cfg.ema_long closes i
  let ma25Oversold := F.fle ma25Frac (F.fin cfg.ma_oversold_threshold)
  let rsiOversold := F.fle rsi (F.fin cfg.rsi_oversold)
  let rsiOverbought := F.fge rsi (F.fin cfg.rsi_overbought)
  let wOversold := F.fle williams (F.fin cfg.williams_oversold)
  let wOverbought := F.fge williams (F.fin cfg.williams_overbought)
  { date := (bars.map (·.date)).getD i 0
    high := highs.getD i 0
    low := lows.getD i 0
    close := closes.getD i 0
    volume := volumes.getD i 0
    rsi := rsi
    williamsR := williams
    ema20 := ema20
    ema25 := ema25
    volumeMA := volumeMA
    volumeFrac := volumeFrac
    priceChangePct := priceChangePct
    priceMA5 := priceMA5
    ma25Frac := ma25Frac
    ma25OversoldFlag := ma25Oversold
    rsiOversoldFlag := rsiOversold
    rsiOverboughtFlag := rsiOverbought
    wOversoldFlag := wOversold
    wOverboughtFlag := wOverbought
    buySignal :=
      (rsiOversold && F.fgt volumeFrac (F.fin cfg.volume_threshold)) ||
      (wOversold && F.fgt volumeFrac (F.fin cfg.volume_threshold)) ||
      (ma25Oversold && closeUpAt closes i && F.fgt volumeFrac (F.fin (11/10)))
    sellSignal :=
      rsiOverbought || wOverbought || F.fge ma25Frac (F.fin (11/10)) }

/-- `BNFRealtimeMonitor.calculate_bnf_indicators`: same guard, same columns. -/
def calculate_bnf_indicators_monitor (cfg : Config) (bars : List Bar) : Option (List IndRow) :=
  if bars.length < max cfg.rsi_period (max cfg.williams_period cfg.ema_long) then none
  else some ((List.range bars.length).map (mkIndRowMonitor cfg bars))

/-- Trade actions of both simulators (`'BUY'`, `'SELL_SIGNAL'`, `'SELL_TIME'`,
`'SELL_FINAL'` in the source). -/
inductive Action where
  | buy
  | sellSignal
  | sellTime
  | sellFinal
deriving DecidableEq

/-- The sell-reason strings of `_execute_bnf_backtest`, as symbolic tags. -/
inductive Reason where
  | holdingExpired
  | rsiOverbought
  | williamsOverbought
  | ma25Profit
  | otherSell
  | backtestEnd
deriving DecidableEq

/-- One entry of the single-asset trade ledger.  BUY entries carry no
`reason`/`entry_price`/`profit_pct` keys in the source dicts, modelled here as
`none`. -/
structure Trade where
  date : ℤ
  action : Action
  price : ℚ
  shares : ℚ
  value : ℚ
  reason : Option Reason := none
  entry_price : Option ℚ := none
  profit_pct : Option ℚ := none
deriving DecidableEq

/-- One entry of the single-asset equity curve. -/
structure EquityPoint where
  date : ℤ
  portfolio_value : ℚ
  cash : ℚ
  stock_value : ℚ
  position : Bool
deriving DecidableEq

/-- One row as read by `_execute_bnf_backtest`: the `Close` cell can be `NaN`
(`none`), which makes the loop `continue`; the signal columns are genuinely
boolean in pandas (comparisons against `NaN` yield `False`, never `NaN`), so
`pd.isna` on them is always false and they are plain `Bool` here.  `rsi`,
`williamsR` and `ema25` are read only to pick the sell-reason string. -/
structure XRow where
  date : ℤ
  close : Option ℚ
  buySignal : Bool
  sellSignal : Bool
  rsi : F
  williamsR : F
  ema25 : ℚ
deriving DecidableEq

/-- The mutable locals of `_execute_bnf_backtest`'s loop. -/
structure ExecState where
  position : Bool
  cash : ℚ
  shares : ℚ
  trades : List Trade
  equity : List EquityPoint
  entry_date : Option ℤ
  entry_price : Option ℚ
deriving DecidableEq

/-- Append the day's equity-curve record (the tail of the loop body). -/
def pushEquity (st : ExecState) (d : ℤ) (price : ℚ) : ExecState :=
  { st with equity := st.equity ++
      [{ date := d, portfolio_value := st.cash + st.shares * price, cash := st.cash,
         stock_value := st.shares * price, position := st.position }] }

/-- `(price - entry_price)/entry_price*100 if entry_price else 0`: Python
truthiness makes both `None` and `0.0` fall to `0`. -/
def profitPctOf (entry : Option ℚ) (price : ℚ) : ℚ :=
  match entry with
  | some ep => if ep ≠ 0 then (price - ep) / ep * 100 else 0
  | none => 0

/-- The `force_exit` local of `_execute_bnf_backtest` (lines 375-380): set
only while a position is held, when the held days reach `max_holding_days`. -/
def forceOf (cfg : Config) (st : ExecState) (row : XRow) : Bool :=
  match st.position, st.entry_date with
  | true, some e => decide (row.date - e ≥ cfg.max_holding_days)
  | _, _ => false

/-- One iteration of `_execute_bnf_backtest`'s loop (lines 365-443):
NaN rows are skipped wholesale; otherwise the forced-exit flag is computed,
then the buy branch, then the sell branch, then the equity record. -/
def bnfStep (cfg : Config) (st : ExecState) (row : XRow) : ExecState :=
  match row.close with
  | none => st
  | some price =>
    let force : Bool := forceOf cfg st row
    if row.buySignal && !st.position && decide (st.cash > 0) then
      let sh := st.cash / price
      pushEquity
        { st with
          position := true
          entry_date := some row.date
          entry_price := some price
          shares := sh
          trades := st.trades ++
            [{ date := row.date, action := .buy, price := price, shares := sh,
               value := st.cash }]
          cash := 0 }
        row.date price
    else if st.position && (row.sellSignal || force) then
      let newCash := st.shares * price
      let act := if force then Action.sellTime else Action.sellSignal
      let why :=
        if force then Reason.holdingExpired
        else if F.fge row.rsi (F.fin cfg.rsi_overbought) then Reason.rsiOverbought
        else if F.fge row.williamsR (F.fin cfg.williams_overbought) then Reason.williamsOverbought
        else if F.fge (F.div (F.fin price) (F.fin row.ema25)) (F.fin (11/10)) then Reason.ma25Profit
        else Reason.otherSell
      pushEquity
        { st with
          cash := newCash
          trades := st.trades ++
            [{ date := row.date, action := act, price := price, shares := st.shares,
               value := newCash, reason := some why, entry_price := st.entry_price,
               profit_pct := some (profitPctOf st.entry_price price) }]
          shares := 0
          position := false
          entry_date := none
          entry_price := none }
        row.date price
    else pushEquity st row.date price

/-- The initial locals of `_execute_bnf_backtest`. -/
def initExecState (capital : ℚ) : ExecState :=
  { position := false, cash := capital, shares := 0, trades := [], equity := [],
    entry_date := none, entry_price := none }

/-- The main loop of `_execute_bnf_backtest` over all rows. -/
def bnfLoop (cfg : Config) (capital : ℚ) (rows : List XRow) : ExecState :=
  rows.foldl (bnfStep cfg) (initExecState capital)

/-- The end-of-run settlement of `_execute_bnf_backtest` (lines 445-460): a
still-open position is liquidated at `data.iloc[-1]['Close']` and a
`SELL_FINAL` trade is appended.  A `NaN` final close would poison the cash
value with `NaN` in the source; that branch is left as the identity here and
is unreachable for indicator-pipeline outputs (whose closes are never NaN). -/
def bnfSettle (rows : List XRow) (st : ExecState) : ExecState :=
  if st.shares > 0 then
    match rows.getLast? with
    | some last =>
      match last.close with
      | some fp =>
        let newCash := st.shares * fp
        { st with
          cash := newCash
          trades := st.trades ++
            [{ date := last.date, action := .sellFinal, price := fp, shares := st.shares,
               value := newCash, reason := some .backtestEnd, entry_price := st.entry_price,
               profit_pct := some (profitPctOf st.entry_price fp) }] }
      | none => st
    | none => st
  else st

/-- `_execute_bnf_backtest` (bnf_backtest_strategy.py, lines 354-472): loop
then final settlement.  The returned `ExecState` carries the trade ledger,
the equity curve and the final cash. -/
def execute_bnf_backtest (cfg : Config) (capital : ℚ) (rows : List XRow) : ExecState :=
  bnfSettle rows (bnfLoop cfg capital rows)

/-- Project an annotated indicator row to the executor's view of it. -/
def toXRow (r : IndRow) : XRow :=
  { date := r.date, close := some r.close, buySignal := r.buySignal,
    sellSignal := r.sellSignal, rsi := r.rsi, williamsR := r.williamsR,
    ema25 := r.ema25 }

/-- The composition performed by `run_single_backtest`: annotate, then run the
backtest loop (the download/data-quality gates of that method are out of
scope; `none` models the insufficient-history early return). -/
def runSingle (cfg : Config) (capital : ℚ) (bars : List Bar) : Option ExecState :=
  (calculate_bnf_indicators cfg bars).map
    (fun rows => execute_bnf_backtest cfg capital (rows.map toXRow))

/-- One completed Buy→Sell pair as produced by `_analyze_bnf_trades`. -/
structure CompletedTrade where
  entry_date : ℤ
  exit_date : ℤ
  entry_price : ℚ
  exit_price : ℚ
  profit_pct : ℚ
  holding_days : ℤ
  exit_reason : Action
  is_winning : Bool
deriving DecidableEq

/-- The pair record built at lines 530-543 of `_analyze_bnf_trades`. -/
def pairOf (bt t : Trade) : CompletedTrade :=
  let ppct := (t.price - bt.price) / bt.price * 100
  { entry_date := bt.date, exit_date := t.date, entry_price := bt.price,
    exit_price := t.price, profit_pct := ppct, holding_days := t.date - bt.date,
    exit_reason := t.action, is_winning := decide (ppct > 0) }

/-- One iteration of `_analyze_bnf_trades`'s loop: the pending `buy_trade`
local plus the accumulated `completed_trades` list. -/
def analyzeStep (acc : Option Trade × List CompletedTrade) (t : Trade) :
    Option Trade × List CompletedTrade :=
  if t.action = .buy then (some t, acc.2)
  else
    match acc.1 with
    | some bt =>
      if t.action = .sellSignal ∨ t.action = .sellTime then (none, acc.2 ++ [pairOf bt t])
      else (some bt, acc.2)
    | none => (none, acc.2)

/-- `_analyze_bnf_trades` (bnf_backtest_strategy.py, lines 521-547): pairs each
BUY with the next SELL_SIGNAL/SELL_TIME trade; any other action leaves the
pending buy untouched. -/
def analyze_bnf_trades (trades : List Trade) : List CompletedTrade :=
  (trades.foldl analyzeStep (none, [])).2

/-- The completed-trade performance numbers of `_calculate_bnf_metrics`
(lines 483-498).  `profit_factor = none` models the `float('inf')` branch. -/
structure TradeMetrics where
  total_trades : ℕ
  winning_trades : ℕ
  win_rate : ℚ
  avg_profit : ℚ
  avg_loss : ℚ
  profit_factor : Option ℚ
  avg_holding_days : ℚ
deriving DecidableEq

/-- `np.mean` on a nonempty rational list. -/
def qmean (xs : List ℚ) : ℚ := xs.sum / xs.length

/-- The completed-trade statistics block of `_calculate_bnf_metrics`: win rate,
winner count, average profit/loss, profit factor and average holding days are
all functions of `completed_trades` alone. -/
def bnfTradeMetrics (completed : List CompletedTrade) : TradeMetrics :=
  let total := completed.length
  let winning := (completed.filter (·.is_winning)).length
  let profits := (completed.filter (·.is_winning)).map (·.profit_pct)
  let losses := (completed.filter (fun t => !t.is_winning)).map (·.profit_pct)
  let avg_profit := if profits ≠ [] then qmean profits else 0
  let avg_loss := if losses ≠ [] then qmean losses else 0
  { total_trades := total
    winning_trades := winning
    win_rate := if total > 0 then (winning : ℚ) / (total : ℚ) * 100 else 0
    avg_profit := avg_profit
    avg_loss := avg_loss
    profit_factor := if avg_loss ≠ 0 then some (abs (avg_profit / avg_loss)) else none
    avg_holding_days :=
      if completed ≠ [] then qmean (completed.map (fun t => (t.holding_days : ℚ))) else 0 }

/-- One annotated row as the portfolio loop reads it (`row['Close']`,
`row['BNF_Buy_Signal']`, ..., all defined values for NaN-free inputs). -/
structure PRow where
  close : ℚ
  buySignal : Bool
  sellSignal : Bool
  rsi : ℚ
  williamsR : ℚ
  volumeFrac : ℚ
deriving DecidableEq

/-- The `stock_data` dict: per symbol, a date-indexed annotated frame. -/
abbrev StockData := List (String × List (ℤ × PRow))

/-- `stock_data[symbol]` (as an option; `valid_stocks` always holds keys). -/
def lookupData (sd : StockData) (sym : String) : Option (List (ℤ × PRow)) :=
  (sd.find? (fun p => p.1 = sym)).map (·.2)

/-- `data.loc[date]` / `date in data.index`. -/
def lookupDate (tbl : List (ℤ × PRow)) (d : ℤ) : Option PRow :=
  (tbl.find? (fun p => p.1 = d)).map (·.2)

/-- A `signal_info` dict of the portfolio loop's step 1. -/
structure SignalInfo where
  symbol : String
  price : ℚ
  buySignal : Bool
  sellSignal : Bool
  rsi : ℚ
  williamsR : ℚ
  volumeFrac : ℚ
deriving DecidableEq

/-- Step 1 of `_execute_bnf_portfolio_backtest` (lines 816-838): collect every
valid symbol's signal row for the date; symbols whose frame lacks the date are
skipped (`continue`). -/
def collectSignals (sd : StockData) (validStocks : List String) (d : ℤ) : List SignalInfo :=
  validStocks.filterMap fun sym =>
    match lookupData sd sym with
    | none => none
    | some tbl =>
      match lookupDate tbl d with
      | none => none
      | some row =>
        some { symbol := sym, price := row.close, buySignal := row.buySignal,
               sellSignal := row.sellSignal, rsi := row.rsi,
               williamsR := row.williamsR, volumeFrac := row.volumeFrac }

/-- A `holdings[symbol]` value. -/
structure Holding where
  shares : ℚ
  entry_date : ℤ
  entry_price : ℚ
deriving DecidableEq

/-- One entry of the portfolio trade ledger (`days_held` is present only on
sell entries, as in the source dicts). -/
structure PTrade where
  date : ℤ
  symbol : String
  action : Action
  price : ℚ
  shares : ℚ
  value : ℚ
  days_held : Option ℤ := none
deriving DecidableEq

/-- One `portfolio_history` record. -/
structure Snapshot where
  date : ℤ
  total_value : ℚ
  cash : ℚ
  stock_value : ℚ
  positions : ℕ
  daily_trades : ℕ
deriving DecidableEq

/-- The portfolio loop's mutable state: shared cash, the ordered `holdings`
dict (Python dicts preserve insertion order), the global ledger and the
snapshot history. -/
structure PState where
  cash : ℚ
  holdings : List (String × Holding)
  trades : List PTrade
  history : List Snapshot
deriving DecidableEq

/-- `next((s['price'] for s in daily_signals if s['symbol'] == symbol), None)`. -/
def priceFor (sigs : List SignalInfo) (sym : String) : Option ℚ :=
  (sigs.find? (fun s => s.symbol = sym)).map (·.price)

/-- `holdings[symbol]` membership/lookup. -/
def lookupHolding (holdings : List (String × Holding)) (sym : String) : Option Holding :=
  (holdings.find? (fun p => p.1 = sym)).map (·.2)

/-- The body of step 2 of the portfolio loop (lines 840-866): walk the open
positions in insertion order; any with `days_held ≥ max_holding_days` whose
price today is truthy (`if current_price:` — not `None` and not `0`) is
liquidated: cash credited, a SELL_TIME trade appended, the symbol marked for
removal. -/
def forceExitFold (cfg : Config) (d : ℤ) (sigs : List SignalInfo) :
    List (String × Holding) → ℚ × List PTrade × List String → ℚ × List PTrade × List String
  | [], acc => acc
  | (sym, h) :: rest, (cash, trades, removed) =>
    if d - h.entry_date ≥ cfg.max_holding_days then
      match priceFor sigs sym with
      | some p =>
        if p ≠ 0 then
          forceExitFold cfg d sigs rest
            (cash + h.shares * p,
             trades ++
               [{ date := d, symbol := sym, action := .sellTime, price := p,
                  shares := h.shares, value := h.shares * p,
                  days_held := some (d - h.entry_date) }],
             removed ++ [sym])
        else forceExitFold cfg d sigs rest (cash, trades, removed)
      | none => forceExitFold cfg d sigs rest (cash, trades, removed)
    else forceExitFold cfg d sigs rest (cash, trades, removed)

/-- Step 2 of the portfolio loop plus the subsequent `del` sweep (lines
868-870). -/
def forceExitSweep (cfg : Config) (d : ℤ) (sigs : List SignalInfo) (st : PState) : PState :=
  let r := forceExitFold cfg d sigs st.holdings (st.cash, st.trades, [])
  { st with
    cash := r.1
    trades := r.2.1
    holdings := st.holdings.filter (fun p => !(r.2.2.contains p.1)) }

/-- The body of step 3 (lines 872-897): walk the day's signals; a held symbol
with a sell signal is liquidated at the signal's price (membership is checked
against the holdings as they stood at the start of this sweep). -/
def sellFold (cfg : Config) (d : ℤ) (holdings₀ : List (String × Holding)) :
    List SignalInfo → ℚ × List PTrade × List String → ℚ × List PTrade × List String
  | [], acc => acc
  | s :: rest, (cash, trades, removed) =>
    match lookupHolding holdings₀ s.symbol with
    | none => sellFold cfg d holdings₀ rest (cash, trades, removed)
    | some h =>
      if s.sellSignal then
        sellFold cfg d holdings₀ rest
          (cash + h.shares * s.price,
           trades ++
             [{ date := d, symbol := s.symbol, action := .sellSignal, price := s.price,
                shares := h.shares, value := h.shares * s.price,
                days_held := some (d - h.entry_date) }],
           removed ++ [s.symbol])
      else sellFold cfg d holdings₀ rest (cash, trades, removed)

/-- Step 3 of the portfolio loop plus its `del` sweep (lines 899-901). -/
def sellSweep (cfg : Config) (d : ℤ) (sigs : List SignalInfo) (st : PState) : PState :=
  let r := sellFold cfg d st.holdings sigs (st.cash, st.trades, [])
  { st with
    cash := r.1
    trades := r.2.1
    holdings := st.holdings.filter (fun p => !(r.2.2.contains p.1)) }

/-- The candidate order relation of step 4: `sort(key=lambda x: x['rsi'])`. -/
def rsiLE (a b : SignalInfo) : Prop := a.rsi ≤ b.rsi

instance : DecidableRel rsiLE := fun a b => inferInstanceAs (Decidable (a.rsi ≤ b.rsi))

instance : IsTotal SignalInfo rsiLE := ⟨fun a b => le_total a.rsi b.rsi⟩

instance : IsTrans SignalInfo rsiLE := ⟨fun _ _ _ => le_trans⟩

/-- Step 4's candidate list (lines 904-906): buy-flagged symbols not currently
held, stably sorted ascending by RSI.  Python's `list.sort` is stable, and a
stable sort by a key is extensionally unique, so the stable
`List.insertionSort` computes the same list. -/
def buyCandidatesOf (sigs : List SignalInfo) (holdings : List (String × Holding)) :
    List SignalInfo :=
  List.insertionSort rsiLE
    (sigs.filter (fun s => s.buySignal && (lookupHolding holdings s.symbol).isNone))

/-- Python's `lst[:k]` for an integer `k` (negative `k` drops from the end). -/
def pySlice {α : Type} (k : ℤ) (l : List α) : List α :=
  if 0 ≤ k then l.take k.toNat else l.take (l.length - (-k).toNat)

/-- The body of step 4's admission loop (lines 911-939): stop outright when
cash is below the $1,000 floor; otherwise size the position as
`min(0.2, 1/max_positions) × cash` and admit it only when the amount is at
least $1,000. -/
def buyFold (maxPos : ℕ) (d : ℤ) : List SignalInfo → PState → PState
  | [], st => st
  | s :: rest, st =>
    if st.cash < 1000 then st
    else
      -- `investment_ratio = min(0.2, 1.0/max_positions)` and
      -- `investment_amount = total_cash * investment_ratio`, inlined.
      if st.cash * min (1/5 : ℚ) (1 / (maxPos : ℚ)) ≥ 1000 then
        buyFold maxPos d rest
          { st with
            cash := st.cash - st.cash * min (1/5 : ℚ) (1 / (maxPos : ℚ))
            holdings := st.holdings ++
              [(s.symbol,
                { shares := st.cash * min (1/5 : ℚ) (1 / (maxPos : ℚ)) / s.price,
                  entry_date := d, entry_price := s.price })]
            trades := st.trades ++
              [{ date := d, symbol := s.symbol, action := .buy, price := s.price,
                 shares := st.cash * min (1/5 : ℚ) (1 / (maxPos : ℚ)) / s.price,
                 value := st.cash * min (1/5 : ℚ) (1 / (maxPos : ℚ)) }] }
      else buyFold maxPos d rest st

/-- Step 4 of the portfolio loop (lines 903-939): the admission loop ranges
over `buy_candidates[:available_slots]` with
`available_slots = max_positions - len(holdings)`. -/
def processBuySignals (maxPos : ℕ) (d : ℤ) (sigs : List SignalInfo) (st : PState) : PState :=
  let candidates := buyCandidatesOf sigs st.holdings
  let availableSlots : ℤ := (maxPos : ℤ) - st.holdings.length
  buyFold maxPos d (pySlice availableSlots candidates) st

/-- Step 5 (lines 941-960): value the held positions at today's prices
(symbols without a price contribute nothing — the `except: continue`), and
append the day's snapshot. -/
def stockValueOf (sigs : List SignalInfo) (holdings : List (String × Holding)) : ℚ :=
  holdings.foldl
    (fun (acc : ℚ) (p : String × Holding) =>
      match priceFor sigs p.1 with
      | some pr => acc + p.2.shares * pr
      | none => acc) 0

/-- Append the day's `portfolio_history` record. -/
def recordSnapshot (d : ℤ) (sigs : List SignalInfo) (st : PState) : PState :=
  let sv := stockValueOf sigs st.holdings
  { st with history := st.history ++
      [{ date := d, total_value := st.cash + sv, cash := st.cash, stock_value := sv,
         positions := st.holdings.length,
         daily_trades := (st.trades.filter (fun t => t.date == d)).length }] }

/-- One simulated date of `_execute_bnf_portfolio_backtest`, in the source's
fixed order: collect signals, forced time-exits, signal sells, buy admissions
(`max_positions = 10` at the call site), snapshot. -/
def portfolioDayStep (cfg : Config) (sd : StockData) (validStocks : List String)
    (st : PState) (d : ℤ) : PState :=
  let sigs := collectSignals sd validStocks d
  recordSnapshot d sigs
    (processBuySignals 10 d sigs (sellSweep cfg d sigs (forceExitSweep cfg d sigs st)))

/-- `set(stock_data[symbol].index)` as a list (before deduplication). -/
def datesOfSym (sd : StockData) (sym : String) : List ℤ :=
  match lookupData sd sym with
  | some tbl => tbl.map (·.1)
  | none => []

/-- The simulated calendar (lines 783-791): the sorted intersection of every
valid symbol's date index. -/
def allDatesOf (sd : StockData) (validStocks : List String) : List ℤ :=
  match validStocks with
  | [] => []
  | s₀ :: rest =>
    let inter := rest.foldl
      (fun (acc : List ℤ) sym => acc.filter (fun d => (datesOfSym sd sym).contains d))
      (datesOfSym sd s₀).dedup
    List.insertionSort (· ≤ ·) inter

/-- The state after the dated loop of `_execute_bnf_portfolio_backtest`,
before the final settlement. -/
def portfolioLoopState (cfg : Config) (capital : ℚ) (sd : StockData)
    (validStocks : List String) : PState :=
  (allDatesOf sd validStocks).foldl (portfolioDayStep cfg sd validStocks)
    { cash := capital, holdings := [], trades := [], history := [] }

/-- The result record of the portfolio simulator (the claim-relevant fields of
the returned dict: `final_value`, `all_trades`, `portfolio_history`,
`final_holdings`). -/
structure PResult where
  final_value : ℚ
  all_trades : List PTrade
  history : List Snapshot
  final_holdings : List (String × Holding)
deriving DecidableEq

/-- `_execute_bnf_portfolio_backtest` (bnf_backtest_strategy.py, lines
780-995).  The final settlement (lines 962-969) credits each remaining
holding's value at the symbol's last-date close to cash; it appends no trade
and does not clear `holdings` — the returned dict's `final_holdings` is the
dict as it stood.  An empty calendar returns the degenerate `{}` result. -/
def execute_bnf_portfolio_backtest (cfg : Config) (capital : ℚ) (sd : StockData)
    (validStocks : List String) : PResult :=
  let dates := allDatesOf sd validStocks
  let st := portfolioLoopState cfg capital sd validStocks
  match dates.getLast? with
  | none => { final_value := capital, all_trades := [], history := [], final_holdings := [] }
  | some finalDate =>
    let finalCash := st.holdings.foldl
      (fun (acc : ℚ) (p : String × Holding) =>
        match lookupData sd p.1 with
        | some tbl =>
          match lookupDate tbl finalDate with
          | some row => acc + p.2.shares * row.close
          | none => acc
        | none => acc)
      st.cash
    { final_value := finalCash, all_trades := st.trades, history := st.history,
      final_holdings := st.holdings }

/-!
## Concrete inputs used by counterexamples and witnesses
-/

/-- Dates `0..21, 23, 24, 25`: consecutive trading days with one calendar gap
(a holiday/weekend) between the 22nd and the 23rd row. -/
def gapDate (i : ℕ) : ℤ := if i ≤ 21 then (i : ℤ) else (i : ℤ) + 1

/-- A 25-bar declining series (close `= 100 - i`) with a volume spike at row
19: the RSI and Williams %R oversold triggers fire there together with the
volume-ratio condition, producing a buy at row index 19. -/
def barsDecline : List Bar :=
  (List.range 25).map fun i =>
    { date := gapDate i, high := 100 - (i : ℚ), low := 100 - (i : ℚ),
      close := 100 - (i : ℚ), volume := if i = 19 then 100 else 1 }

/-- The annotated rows of `barsDecline`. -/
def declineRows : List IndRow := (calculate_bnf_indicators balancedConfig barsDecline).getD []

/-- The loop state after the first 20 rows of the `barsDecline` run. -/
def c3LoopState : ExecState :=
  bnfLoop balancedConfig 10000 ((declineRows.map toXRow).take 20)

/-- A 25-bar strictly increasing series (close `= i + 1`): no losses at all. -/
def barsUp : List Bar :=
  (List.range 25).map fun i =>
    { date := (i : ℤ), high := (i : ℚ) + 1, low := (i : ℚ) + 1,
      close := (i : ℚ) + 1, volume := 1 }

/-- A 25-bar flat series (close `= 10` everywhere): neither gains nor losses. -/
def barsFlat : List Bar :=
  (List.range 25).map fun i =>
    { date := (i : ℤ), high := 10, low := 10, close := 10, volume := 1 }

/-!
## Shared lemmas about the embedding
-/

/-- A row delivered by the pipeline is exactly `mkIndRow` at its index. -/
theorem calc_rows_get {cfg : Config} {bars : List Bar} {rows : List IndRow}
    {i : ℕ} {r : IndRow}
    (hc : calculate_bnf_indicators cfg bars = some rows) (hr : rows[i]? = some r) :
    r = mkIndRow cfg bars i := by
  unfold calculate_bnf_indicators at hc
  by_cases hlen : bars.length < max cfg.rsi_period (max cfg.williams_period cfg.ema_long)
  · rw [if_pos hlen] at hc
    exact absurd hc (by simp)
  · rw [if_neg hlen] at hc
    injection hc with hc
    subst hc
    rw [List.getElem?_map] at hr
    cases hi : (List.range bars.length)[i]? with
    | none => rw [hi] at hr; simp at hr
    | some j =>
      rw [hi] at hr
      have hj : j = i := by
        rcases List.getElem?_eq_some.1 hi with ⟨hlt, hget⟩
        simpa using hget.symm
      subst hj
      simp only [Option.map_some'] at hr
      exact (Option.some.inj hr).symm

/-- Projection of `mkIndRow` to its RSI column. -/
theorem mkIndRow_rsi (cfg : Config) (bars : List Bar) (i : ℕ) :
    (mkIndRow cfg bars i).rsi = rsiAt cfg.rsi_period (bars.map (·.close)) i := rfl

/-- Projection of `mkIndRow` to its Williams %R column. -/
theorem mkIndRow_williamsR (cfg : Config) (bars : List Bar) (i : ℕ) :
    (mkIndRow cfg bars i).williamsR =
      williamsAt cfg.williams_period (bars.map (·.high)) (bars.map (·.low))
        (bars.map (·.close)) i := rfl

/-- Projection of `mkIndRow` to its volume-ratio column. -/
theorem mkIndRow_volumeFrac (cfg : Config) (bars : List Bar) (i : ℕ) :
    (mkIndRow cfg bars i).volumeFrac =
      volumeFracAt cfg.volume_ma_period (bars.map (·.volume)) i := rfl

/-- Projection of `mkIndRow` to its MA-ratio column. -/
theorem mkIndRow_ma25Frac (cfg : Config) (bars : List Bar) (i : ℕ) :
    (mkIndRow cfg bars i).ma25Frac = ma25FracAt cfg.ema_long (bars.map (·.close)) i := rfl

/-- Projection of `mkIndRow` to its buy-signal column: the OR of the three
source triggers over the computed columns. -/
theorem mkIndRow_buySignal (cfg : Config) (bars : List Bar) (i : ℕ) :
    (mkIndRow cfg bars i).buySignal =
      ((F.fle (rsiAt cfg.rsi_period (bars.map (·.close)) i) (F.fin cfg.rsi_oversold) &&
          F.fgt (volumeFracAt cfg.volume_ma_period (bars.map (·.volume)) i)
            (F.fin cfg.volume_threshold)) ||
       (F.fle (williamsAt cfg.williams_period (bars.map (·.high)) (bars.map (·.low))
            (bars.map (·.close)) i) (F.fin cfg.williams_oversold) &&
          F.fgt (volumeFracAt cfg.volume_ma_period (bars.map (·.volume)) i)
            (F.fin cfg.volume_threshold)) ||
       (F.fle (ma25FracAt cfg.ema_long (bars.map (·.close)) i)
            (F.fin cfg.ma_oversold_threshold) &&
          closeUpAt (bars.map (·.close)) i &&
          F.fgt (volumeFracAt cfg.volume_ma_period (bars.map (·.volume)) i)
            (F.fin (11/10)))) := rfl

/-- `analyzeStep` ignores a `SELL_FINAL` trade completely. -/
theorem analyzeStep_sellFinal (p : Option Trade × List CompletedTrade) (t : Trade)
    (h : t.action = .sellFinal) : analyzeStep p t = p := by
  unfold analyzeStep
  rw [h]
  cases hp : p.1 with
  | none => simp [← hp]
  | some bt => simp [← hp]

/-- Appending a `SELL_FINAL` trade never changes the completed-pair analysis. -/
theorem analyze_append_sellFinal (tr : List Trade) (t : Trade)
    (h : t.action = .sellFinal) :
    analyze_bnf_trades (tr ++ [t]) = analyze_bnf_trades tr := by
  unfold analyze_bnf_trades
  rw [List.foldl_append]
  simp [analyzeStep_sellFinal _ _ h]

/-- Every pair the analyzer's fold accumulates (beyond its starting
accumulator) exits through `SELL_SIGNAL` or `SELL_TIME`. -/
theorem analyzeFold_exit (tr : List Trade) :
    ∀ (b : Option Trade) (acc : List CompletedTrade),
      (∀ p ∈ acc, p.exit_reason = .sellSignal ∨ p.exit_reason = .sellTime) →
      ∀ p ∈ (tr.foldl analyzeStep (b, acc)).2,
        p.exit_reason = .sellSignal ∨ p.exit_reason = .sellTime := by
  induction tr with
  | nil => intro b acc hacc p hp; exact hacc p hp
  | cons t rest ih =>
    intro b acc hacc p hp
    rw [List.foldl_cons] at hp
    refine ih (analyzeStep (b, acc) t).1 (analyzeStep (b, acc) t).2 ?_ p hp
    intro q hq
    unfold analyzeStep at hq
    by_cases hbuy : t.action = .buy
    · rw [if_pos hbuy] at hq
      exact hacc q hq
    · rw [if_neg hbuy] at hq
      cases b with
      | none => exact hacc q hq
      | some bt =>
        dsimp only at hq
        by_cases hsell : t.action = .sellSignal ∨ t.action = .sellTime
        · rw [if_pos hsell] at hq
          rcases List.mem_append.1 hq with h1 | h1
          · exact hacc q h1
          · rcases List.mem_singleton.1 h1 with rfl
            simpa [pairOf] using hsell
        · rw [if_neg hsell] at hq
          exact hacc q hq

/-- Every completed pair exits through `SELL_SIGNAL` or `SELL_TIME`. -/
theorem analyze_exit_reason (tr : List Trade) :
    ∀ p ∈ analyze_bnf_trades tr,
      p.exit_reason = .sellSignal ∨ p.exit_reason = .sellTime :=
  analyzeFold_exit tr none [] (by intro p hp; cases hp)

/-!
## Claims
-/

/-- Claim C9 (confirmed): the backtester's and the monitor's
`calculate_bnf_indicators` are extensionally equal — for every bar series and
identical parameter set they produce identical indicator columns and identical
buy/sell flags (the two method bodies are the same computation). -/
theorem c9_indicator_engines_extensionally_equal :
    ∀ (cfg : Config) (bars : List Bar),
      calculate_bnf_indicators cfg bars = calculate_bnf_indicators_monitor cfg bars := by
  intro cfg bars
  rfl

/-- Claim C10 (confirmed): the completed-trade pairing of
`_analyze_bnf_trades` only ever pairs a Buy with a `SELL_SIGNAL` or
`SELL_TIME` exit; appending the end-of-run `SELL_FINAL` settlement trade
changes neither the completed-pair list nor any completed-trade metric
(win rate, winner count, average profit, average loss, profit factor,
average holding days are all `bnfTradeMetrics` of that list). -/
theorem c10_sell_final_never_counted (trades : List Trade) (t : Trade)
    (h : t.action = .sellFinal) :
    (∀ p ∈ analyze_bnf_trades trades,
        p.exit_reason = .sellSignal ∨ p.exit_reason = .sellTime) ∧
    analyze_bnf_trades (trades ++ [t]) = analyze_bnf_trades trades ∧
    bnfTradeMetrics (analyze_bnf_trades (trades ++ [t])) =
      bnfTradeMetrics (analyze_bnf_trades trades) := by
  refine ⟨analyze_exit_reason trades, analyze_append_sellFinal trades t h, ?_⟩
  rw [analyze_append_sellFinal trades t h]

/-- Example trade list for the C10 witness: one completed pair then a pending
buy closed by the final settlement. -/
def exTrades : List Trade :=
  [{ date := 0, action := .buy, price := 100, shares := 100, value := 10000 },
   { date := 1, action := .sellSignal, price := 110, shares := 100, value := 11000,
     reason := some .rsiOverbought, entry_price := some 100, profit_pct := some 10 },
   { date := 2, action := .buy, price := 110, shares := 100, value := 11000 }]

/-- The settlement trade appended after `exTrades`. -/
def exFinal : Trade :=
  { date := 3, action := .sellFinal, price := 120, shares := 100, value := 12000,
    reason := some .backtestEnd, entry_price := some 110, profit_pct := some (100/11) }

/-- Witness for C10 at a concrete ledger. -/
theorem c10_witness :
    (∀ p ∈ analyze_bnf_trades exTrades,
        p.exit_reason = .sellSignal ∨ p.exit_reason = .sellTime) ∧
    analyze_bnf_trades (exTrades ++ [exFinal]) = analyze_bnf_trades exTrades ∧
    bnfTradeMetrics (analyze_bnf_trades (exTrades ++ [exFinal])) =
      bnfTradeMetrics (analyze_bnf_trades exTrades) :=
  c10_sell_final_never_counted exTrades exFinal rfl

/-- Claim C3 (corrected).  What does hold: (i) a row whose `Close` cell is NaN
is skipped without any state change (and the signal flag columns can never be
NaN, being boolean columns built from NaN-rejecting comparisons); (ii) rows
before the volume-average window is full carry an undefined volume ratio, so
no buy trigger can fire there.  The original claim's stronger reading — that
every row before the `max(configured periods)` window is full is skipped with
no transition — is refuted by `c3_counterexample`. -/
theorem c3_nan_rows_skipped_and_no_buy_before_volume_window :
    (∀ (cfg : Config) (st : ExecState) (row : XRow),
        row.close = none → bnfStep cfg st row = st) ∧
    (∀ (cfg : Config) (bars : List Bar) (rows : List IndRow) (i : ℕ) (r : IndRow),
        calculate_bnf_indicators cfg bars = some rows → rows[i]? = some r →
        i + 1 < cfg.volume_ma_period → r.buySignal = false) := by
  constructor
  · intro cfg st row h
    unfold bnfStep
    rw [h]
  · intro cfg bars rows i r hc hr hw
    have hr' := calc_rows_get hc hr
    subst hr'
    rw [mkIndRow_buySignal]
    have hv : volumeFracAt cfg.volume_ma_period (bars.map (·.volume)) i = F.nan := by
      unfold volumeFracAt rollingMean
      rw [if_pos hw]
      rfl
    rw [hv]
    simp [F.fgt, F.flt]

unseal Rat.mul Rat.add Rat.inv Rat.sub in
/-- Counterexample to C3 as stated: in the `barsDecline` run the row at index
19 lies before the `max(rsi_period, williams_period, ema_long) = 25` window is
full, yet it is not skipped — its buy flag is set and the simulator takes a
BUY transition on it (position flips, a trade dated 19 is recorded). -/
theorem c3_counterexample :
    declineRows.map (·.buySignal) =
      List.replicate 19 false ++ [true] ++ List.replicate 5 false ∧
    c3LoopState.position = true ∧
    c3LoopState.trades.map (fun t => (t.date, t.action)) = [((19 : ℤ), Action.buy)] ∧
    19 + 1 < max balancedConfig.rsi_period
      (max balancedConfig.williams_period balancedConfig.ema_long) := by
  decide

unseal Rat.mul Rat.add Rat.inv Rat.sub in
/-- Witness for C3 (amended): a NaN-close row leaves the concrete initial
state untouched, and the early-window row 5 of the `barsDecline` run has a
false buy flag. -/
theorem c3_witness :
    bnfStep balancedConfig (initExecState 10000)
      { date := 0, close := none, buySignal := true, sellSignal := true,
        rsi := F.nan, williamsR := F.nan, ema25 := 1 } = initExecState 10000 ∧
    (declineRows[5]?).map (·.buySignal) = some false := by
  constructor
  · exact c3_nan_rows_skipped_and_no_buy_before_volume_window.1 balancedConfig
      (initExecState 10000) _ rfl
  · cases h : declineRows[5]? with
    | none => exact absurd h (by decide)
    | some r =>
      rw [Option.map_some']
      rw [c3_nan_rows_skipped_and_no_buy_before_volume_window.2 balancedConfig barsDecline
        declineRows 5 r (by decide) h (by decide)]

/-- Claim C7 (confirmed): for a row with defined (finite) indicator values,
the computed buy flag is exactly the OR of the three triggers, with trigger 3
using the fixed `1.1` volume bar independent of the configured volume
threshold. -/
theorem c7_buy_flag_is_or_of_three_triggers
    (cfg : Config) (bars : List Bar) (rows : List IndRow) (i : ℕ) (r : IndRow)
    (q w v m : ℚ)
    (hc : calculate_bnf_indicators cfg bars = some rows)
    (hr : rows[i]? = some r)
    (hq : r.rsi = F.fin q) (hw : r.williamsR = F.fin w)
    (hv : r.volumeFrac = F.fin v) (hm : r.ma25Frac = F.fin m) :
    (r.buySignal = true ↔
      ((q ≤ cfg.rsi_oversold ∧ v > cfg.volume_threshold) ∨
       (w ≤ cfg.williams_oversold ∧ v > cfg.volume_threshold) ∨
       (m ≤ cfg.ma_oversold_threshold ∧ closeUpAt (bars.map (·.close)) i = true ∧
         v > 11/10))) := by
  have hr' := calc_rows_get hc hr
  subst hr'
  rw [mkIndRow_rsi] at hq
  rw [mkIndRow_williamsR] at hw
  rw [mkIndRow_volumeFrac] at hv
  rw [mkIndRow_ma25Frac] at hm
  rw [mkIndRow_buySignal, hq, hw, hv, hm]
  simp [F.fle, F.fgt, F.flt, and_assoc, or_assoc]

/-- The `barsDecline` row at index 19 (all indicators defined there). -/
def r19 : IndRow := declineRows.getD 19 (mkIndRow balancedConfig [] 0)

unseal Rat.mul Rat.add Rat.inv Rat.sub in
/-- Witness for C7 at the concrete row 19 of `barsDecline`. -/
theorem c7_witness :
    r19.buySignal = true ↔
      (((0 : ℚ) ≤ balancedConfig.rsi_oversold ∧
          (2000/119 : ℚ) > balancedConfig.volume_threshold) ∨
       ((-100 : ℚ) ≤ balancedConfig.williams_oversold ∧
          (2000/119 : ℚ) > balancedConfig.volume_threshold) ∨
       (81 / emaAt 25 (barsDecline.map (·.close)) 19 ≤ balancedConfig.ma_oversold_threshold ∧
          closeUpAt (barsDecline.map (·.close)) 19 = true ∧ (2000/119 : ℚ) > 11/10)) :=
  c7_buy_flag_is_or_of_three_triggers balancedConfig barsDecline declineRows 19 r19
    0 (-100) (2000/119) (81 / emaAt 25 (barsDecline.map (·.close)) 19)
    (by decide) (by decide) (by decide) (by decide) (by decide) (by decide)

/-- Claim C8 (corrected).  What does hold: with a zero average loss the RSI is
`100` only when the average gain is positive (`RS = +inf`); when the trailing
window is entirely flat (average gain also zero) the source's `0/0` produces
`NaN`, not `100` — see `c8_counterexample`. -/
theorem c8_zero_loss_rsi (cfg : Config) (bars : List Bar) (rows : List IndRow)
    (i : ℕ) (r : IndRow) (g : ℚ)
    (hc : calculate_bnf_indicators cfg bars = some rows)
    (hr : rows[i]? = some r)
    (hg : rollingMean cfg.rsi_period (gainSeq (bars.map (·.close))) i = some g)
    (hl : rollingMean cfg.rsi_period (lossSeq (bars.map (·.close))) i = some 0) :
    (0 < g → r.rsi = F.fin 100) ∧ (g = 0 → r.rsi = F.nan) := by
  have hr' := calc_rows_get hc hr
  subst hr'
  rw [mkIndRow_rsi]
  unfold rsiAt
  rw [hg, hl]
  constructor
  · intro hgpos
    have hne : ¬(g = 0) := ne_of_gt hgpos
    simp [oF, F.div, F.add, F.sub, hne, hgpos]
  · intro hg0
    subst hg0
    simp [oF, F.div, F.add, F.sub]

/-- The annotated rows of `barsUp` and `barsFlat`. -/
def upRows : List IndRow := (calculate_bnf_indicators balancedConfig barsUp).getD []

/-- The annotated rows of the flat series. -/
def flatRows : List IndRow := (calculate_bnf_indicators balancedConfig barsFlat).getD []

unseal Rat.mul Rat.add Rat.inv Rat.sub in
/-- Witness for C8 (amended): on the strictly increasing series the first full
RSI window has zero average loss and positive average gain, and the computed
RSI is exactly 100. -/
theorem c8_witness :
    (upRows.getD 13 (mkIndRow balancedConfig [] 0)).rsi = F.fin 100 :=
  (c8_zero_loss_rsi balancedConfig barsUp upRows 13
      (upRows.getD 13 (mkIndRow balancedConfig [] 0)) (13/14)
      (by decide) (by decide) (by decide) (by decide)).1 (by norm_num)

unseal Rat.mul Rat.add Rat.inv Rat.sub in
/-- Counterexample to C8 as stated: the flat 25-bar series has no negative
close-to-close delta in the window ending at index 13 (its average loss is 0),
yet the computed RSI there is `NaN`, not 100. -/
theorem c8_counterexample :
    rollingMean balancedConfig.rsi_period (lossSeq (barsFlat.map (·.close))) 13 = some 0 ∧
    (lossSeq (barsFlat.map (·.close))).all (fun x => decide (0 ≤ x)) = true ∧
    (flatRows.getD 13 (mkIndRow balancedConfig [] 0)).rsi = F.nan ∧
    F.nan ≠ F.fin 100 := by
  decide

/-!
## Concrete portfolio inputs
-/

/-- A buy-flagged signal row at price `p`. -/
def pRowBuy (p : ℚ) : PRow :=
  { close := p, buySignal := true, sellSignal := false, rsi := 30, williamsR := -50,
    volumeFrac := 2 }

/-- A signal-free row at price `p`. -/
def pRowIdle (p : ℚ) : PRow :=
  { close := p, buySignal := false, sellSignal := false, rsi := 50, williamsR := -50,
    volumeFrac := 1 }

/-- One symbol, two dates, a buy on the first date and no exit signal: the
position is still open when the calendar ends. -/
def sdHold : StockData := [("A", [(0, pRowBuy 100), (1, pRowIdle 110)])]

/-- The portfolio run over `sdHold`. -/
def runHold : PResult := execute_bnf_portfolio_backtest balancedConfig 10000 sdHold ["A"]

/-- One symbol, four dates: a buy on date 0, no signals on dates 1-2, and a
fresh buy flag on date 3 — the date the position's holding time expires. -/
def sdRebuy : StockData :=
  [("A", [(0, pRowBuy 100), (1, pRowIdle 100), (2, pRowIdle 100), (3, pRowBuy 100)])]

/-- The portfolio run over `sdRebuy`. -/
def runRebuy : PResult := execute_bnf_portfolio_backtest balancedConfig 10000 sdRebuy ["A"]

/-- An empty portfolio state with $10,000 cash. -/
def pInit : PState := { cash := 10000, holdings := [], trades := [], history := [] }

/-!
## Portfolio ledger classification lemmas
-/

/-- Trades added by the forced-exit sweep are always `SELL_TIME`. -/
theorem forceExitFold_trades (cfg : Config) (d : ℤ) (sigs : List SignalInfo) :
    ∀ (l : List (String × Holding)) (cash : ℚ) (trades : List PTrade)
      (removed : List String) (t : PTrade),
      t ∈ (forceExitFold cfg d sigs l (cash, trades, removed)).2.1 →
      t ∈ trades ∨ t.action = .sellTime := by
  intro l
  induction l with
  | nil => intro _ _ _ t ht; exact Or.inl ht
  | cons p rest ih =>
    intro cash trades removed t ht
    obtain ⟨sym, h⟩ := p
    unfold forceExitFold at ht
    split at ht
    · split at ht
      · split at ht
        · rcases ih _ _ _ t ht with h1 | h1
          · rcases List.mem_append.1 h1 with h2 | h2
            · exact Or.inl h2
            · rcases List.mem_singleton.1 h2 with rfl
              exact Or.inr rfl
          · exact Or.inr h1
        · exact ih _ _ _ t ht
      · exact ih _ _ _ t ht
    · exact ih _ _ _ t ht

/-- Trades added by the signal-sell sweep are always `SELL_SIGNAL`. -/
theorem sellFold_trades (cfg : Config) (d : ℤ) (holdings₀ : List (String × Holding)) :
    ∀ (l : List SignalInfo) (cash : ℚ) (trades : List PTrade)
      (removed : List String) (t : PTrade),
      t ∈ (sellFold cfg d holdings₀ l (cash, trades, removed)).2.1 →
      t ∈ trades ∨ t.action = .sellSignal := by
  intro l
  induction l with
  | nil => intro _ _ _ t ht; exact Or.inl ht
  | cons s rest ih =>
    intro cash trades removed t ht
    unfold sellFold at ht
    split at ht
    · exact ih _ _ _ t ht
    · split at ht
      · rcases ih _ _ _ t ht with h1 | h1
        · rcases List.mem_append.1 h1 with h2 | h2
          · exact Or.inl h2
          · rcases List.mem_singleton.1 h2 with rfl
            exact Or.inr rfl
        · exact Or.inr h1
      · exact ih _ _ _ t ht

/-- Trades added by the admission loop are always `BUY`. -/
theorem buyFold_trades (maxPos : ℕ) (d : ℤ) :
    ∀ (l : List SignalInfo) (st : PState) (t : PTrade),
      t ∈ (buyFold maxPos d l st).trades → t ∈ st.trades ∨ t.action = .buy := by
  intro l
  induction l with
  | nil => intro st t ht; exact Or.inl ht
  | cons s rest ih =>
    intro st t ht
    unfold buyFold at ht
    split at ht
    · exact Or.inl ht
    · split at ht
      · rcases ih _ t ht with h1 | h1
        · rcases List.mem_append.1 h1 with h2 | h2
          · exact Or.inl h2
          · rcases List.mem_singleton.1 h2 with rfl
            exact Or.inr rfl
        · exact Or.inr h1
      · exact ih _ t ht

/-- One simulated date never puts a `SELL_FINAL` into the ledger. -/
theorem portfolioDayStep_trades (cfg : Config) (sd : StockData) (vs : List String)
    (st : PState) (d : ℤ) :
    ∀ t ∈ (portfolioDayStep cfg sd vs st d).trades, t ∈ st.trades ∨ t.action ≠ .sellFinal := by
  intro t ht
  have hsnap : (portfolioDayStep cfg sd vs st d).trades =
      (processBuySignals 10 d (collectSignals sd vs d)
        (sellSweep cfg d (collectSignals sd vs d)
          (forceExitSweep cfg d (collectSignals sd vs d) st))).trades := rfl
  rw [hsnap] at ht
  rcases buyFold_trades 10 d _ _ t ht with h1 | h1
  · rcases sellFold_trades cfg d _ _ _ _ _ t h1 with h2 | h2
    · rcases forceExitFold_trades cfg d _ _ _ _ _ t h2 with h3 | h3
      · exact Or.inl h3
      · exact Or.inr (by rw [h3]; intro hcontra; cases hcontra)
    · exact Or.inr (by rw [h2]; intro hcontra; cases hcontra)
  · exact Or.inr (by rw [h1]; intro hcontra; cases hcontra)

/-- The whole dated loop never puts a `SELL_FINAL` into the ledger. -/
theorem portfolioLoop_no_sellFinal (cfg : Config) (capital : ℚ) (sd : StockData)
    (vs : List String) :
    ∀ t ∈ (portfolioLoopState cfg capital sd vs).trades, t.action ≠ .sellFinal := by
  unfold portfolioLoopState
  have main : ∀ (dates : List ℤ) (st : PState),
      (∀ t ∈ st.trades, t.action ≠ .sellFinal) →
      ∀ t ∈ (dates.foldl (portfolioDayStep cfg sd vs) st).trades, t.action ≠ .sellFinal := by
    intro dates
    induction dates with
    | nil => intro st h t ht; exact h t ht
    | cons d rest ih =>
      intro st h t ht
      rw [List.foldl_cons] at ht
      refine ih _ ?_ t ht
      intro u hu
      rcases portfolioDayStep_trades cfg sd vs st d u hu with h1 | h1
      · exact h u h1
      · exact h1
  exact main _ _ (by intro t ht; cases ht)

/-- Claim C2 (corrected/amended).  Single-asset runs do settle with a
distinguishing `SELL_FINAL` trade at the last row's close.  The portfolio
simulator, however, only credits the cash: its ledger never contains a
`SELL_FINAL` action and the returned `final_holdings` map is exactly the
loop's holdings — it is NOT emptied by settlement (see `c2_counterexample`). -/
theorem c2_final_settlement (cfg : Config) (capital : ℚ) :
    (∀ (rows : List XRow) (lastRow : XRow) (fp : ℚ),
        rows.getLast? = some lastRow → lastRow.close = some fp →
        (bnfLoop cfg capital rows).shares > 0 →
        (execute_bnf_backtest cfg capital rows).trades =
          (bnfLoop cfg capital rows).trades ++
            [{ date := lastRow.date, action := .sellFinal, price := fp,
               shares := (bnfLoop cfg capital rows).shares,
               value := (bnfLoop cfg capital rows).shares * fp,
               reason := some .backtestEnd,
               entry_price := (bnfLoop cfg capital rows).entry_price,
               profit_pct := some (profitPctOf (bnfLoop cfg capital rows).entry_price fp) }] ∧
        (execute_bnf_backtest cfg capital rows).cash =
          (bnfLoop cfg capital rows).shares * fp) ∧
    (∀ (sd : StockData) (vs : List String),
        (execute_bnf_portfolio_backtest cfg capital sd vs).final_holdings =
          (portfolioLoopState cfg capital sd vs).holdings ∧
        ∀ t ∈ (execute_bnf_portfolio_backtest cfg capital sd vs).all_trades,
          t.action ≠ .sellFinal) := by
  constructor
  · intro rows lastRow fp hlast hclose hpos
    unfold execute_bnf_backtest bnfSettle
    rw [if_pos hpos, hlast]
    dsimp only
    rw [hclose]
    exact ⟨rfl, rfl⟩
  · intro sd vs
    constructor
    · unfold execute_bnf_portfolio_backtest
      dsimp only
      split
      · rename_i hd
        have hnil : allDatesOf sd vs = [] := by
          cases hD : allDatesOf sd vs with
          | nil => rfl
          | cons a as => rw [hD] at hd; simp at hd
        show ([] : List (String × Holding)) = (portfolioLoopState cfg capital sd vs).holdings
        unfold portfolioLoopState
        rw [hnil]
        rfl
      · rfl
    · intro t ht
      unfold execute_bnf_portfolio_backtest at ht
      dsimp only at ht
      split at ht
      · cases ht
      · exact portfolioLoop_no_sellFinal cfg capital sd vs t ht

unseal Rat.mul Rat.add Rat.inv Rat.sub in
/-- Counterexample to C2 as stated: in the `sdHold` run a position is still
open at the end; settlement credits its value (final value `10100`) but the
ledger holds only the BUY (no `SELL_FINAL` action) and the returned position
map still holds the symbol — it is not empty. -/
theorem c2_counterexample :
    runHold.final_holdings.map (fun p => p.1) = ["A"] ∧
    runHold.all_trades.map (·.action) = [Action.buy] ∧
    runHold.final_value = 10100 := by
  decide

/-- A one-row single-asset input whose buy leaves the position open. -/
def demoRow : XRow :=
  { date := 0, close := some 100, buySignal := true, sellSignal := false,
    rsi := F.nan, williamsR := F.nan, ema25 := 1 }

unseal Rat.mul Rat.add Rat.inv Rat.sub in
/-- Witness for C2 (amended) at concrete inputs: the single-asset settlement
appends the `SELL_FINAL` trade, and the concrete portfolio run's returned map
equals the loop's holdings with no `SELL_FINAL` in its ledger. -/
theorem c2_witness :
    ((execute_bnf_backtest balancedConfig 10000 [demoRow]).trades =
      (bnfLoop balancedConfig 10000 [demoRow]).trades ++
        [{ date := demoRow.date, action := .sellFinal, price := 100,
           shares := (bnfLoop balancedConfig 10000 [demoRow]).shares,
           value := (bnfLoop balancedConfig 10000 [demoRow]).shares * 100,
           reason := some .backtestEnd,
           entry_price := (bnfLoop balancedConfig 10000 [demoRow]).entry_price,
           profit_pct := some
             (profitPctOf (bnfLoop balancedConfig 10000 [demoRow]).entry_price 100) }] ∧
      (execute_bnf_backtest balancedConfig 10000 [demoRow]).cash =
        (bnfLoop balancedConfig 10000 [demoRow]).shares * 100) ∧
    ((execute_bnf_portfolio_backtest balancedConfig 10000 sdHold ["A"]).final_holdings =
      (portfolioLoopState balancedConfig 10000 sdHold ["A"]).holdings ∧
     ∀ t ∈ (execute_bnf_portfolio_backtest balancedConfig 10000 sdHold ["A"]).all_trades,
       t.action ≠ .sellFinal) :=
  ⟨(c2_final_settlement balancedConfig 10000).1 [demoRow] demoRow 100 rfl rfl (by decide),
   (c2_final_settlement balancedConfig 10000).2 sdHold ["A"]⟩

unseal Rat.mul Rat.add Rat.inv Rat.sub in
/-- Claim C4 (corrected/amended).  What does hold: the forced time-exit sweep
does run before sell-signal processing and before buy admissions on every
simulated date.  But the intended consequence fails: buy candidates are
screened against the post-sweep holdings, so a symbol force-liquidated for
time expiry that carries a buy signal is immediately eligible again and can be
re-admitted on the very same date (`c4_counterexample`). -/
theorem c4_sweep_order_and_same_day_readmission :
    (∀ (cfg : Config) (sd : StockData) (vs : List String) (st : PState) (d : ℤ),
        portfolioDayStep cfg sd vs st d =
          recordSnapshot d (collectSignals sd vs d)
            (processBuySignals 10 d (collectSignals sd vs d)
              (sellSweep cfg d (collectSignals sd vs d)
                (forceExitSweep cfg d (collectSignals sd vs d) st)))) ∧
    (∀ (sigs : List SignalInfo) (holdings : List (String × Holding)) (s : SignalInfo),
        s ∈ sigs → s.buySignal = true → lookupHolding holdings s.symbol = none →
        s ∈ buyCandidatesOf sigs holdings) ∧
    ((runRebuy.all_trades.filter (fun t => t.date == 3)).map
        (fun t => (t.symbol, t.action)) =
      [("A", Action.sellTime), ("A", Action.buy)]) := by
  refine ⟨fun cfg sd vs st d => rfl, ?_, by decide⟩
  intro sigs holdings s hs hb hh
  unfold buyCandidatesOf
  rw [(List.perm_insertionSort rsiLE _).mem_iff, List.mem_filter]
  exact ⟨hs, by rw [hb, hh]; rfl⟩

unseal Rat.mul Rat.add Rat.inv Rat.sub in
/-- Counterexample to C4 as stated: in the `sdRebuy` run the symbol `A` is
force-liquidated for time expiry on date 3 and re-admitted as a new position
on that same date. -/
theorem c4_counterexample :
    runRebuy.all_trades.map (fun t => (t.date, t.symbol, t.action)) =
      [((0 : ℤ), "A", Action.buy), (3, "A", Action.sellTime), (3, "A", Action.buy)] := by
  decide

/-- A concrete buy-flagged signal. -/
def demoSig : SignalInfo :=
  { symbol := "A", price := 100, buySignal := true, sellSignal := false, rsi := 30,
    williamsR := -50, volumeFrac := 2 }

/-- Witness for C4 (amended) at concrete inputs. -/
theorem c4_witness :
    portfolioDayStep balancedConfig sdRebuy ["A"] pInit 0 =
      recordSnapshot 0 (collectSignals sdRebuy ["A"] 0)
        (processBuySignals 10 0 (collectSignals sdRebuy ["A"] 0)
          (sellSweep balancedConfig 0 (collectSignals sdRebuy ["A"] 0)
            (forceExitSweep balancedConfig 0 (collectSignals sdRebuy ["A"] 0) pInit))) ∧
    demoSig ∈ buyCandidatesOf [demoSig] [] :=
  ⟨c4_sweep_order_and_same_day_readmission.1 balancedConfig sdRebuy ["A"] pInit 0,
   c4_sweep_order_and_same_day_readmission.2.1 [demoSig] [] demoSig
     (List.mem_singleton_self _) rfl rfl⟩

/-!
## Position-count bound (portfolio mode)
-/

/-- The admission loop never touches the snapshot history. -/
theorem buyFold_history (maxPos : ℕ) (d : ℤ) :
    ∀ (l : List SignalInfo) (st : PState), (buyFold maxPos d l st).history = st.history := by
  intro l
  induction l with
  | nil => intro st; rfl
  | cons s rest ih =>
    intro st
    unfold buyFold
    split
    · rfl
    · split
      · rw [ih]
      · exact ih st

/-- Each admission adds at most one holding per candidate considered. -/
theorem buyFold_holdings_length (maxPos : ℕ) (d : ℤ) :
    ∀ (l : List SignalInfo) (st : PState),
      (buyFold maxPos d l st).holdings.length ≤ st.holdings.length + l.length := by
  intro l
  induction l with
  | nil => intro st; simp [buyFold]
  | cons s rest ih =>
    intro st
    unfold buyFold
    split
    · simp only [List.length_cons]
      omega
    · split
      · have h := ih { st with
          cash := st.cash - st.cash * min (1/5 : ℚ) (1 / (maxPos : ℚ))
          holdings := st.holdings ++
            [(s.symbol,
              { shares := st.cash * min (1/5 : ℚ) (1 / (maxPos : ℚ)) / s.price,
                entry_date := d, entry_price := s.price })]
          trades := st.trades ++
            [{ date := d, symbol := s.symbol, action := .buy, price := s.price,
               shares := st.cash * min (1/5 : ℚ) (1 / (maxPos : ℚ)) / s.price,
               value := st.cash * min (1/5 : ℚ) (1 / (maxPos : ℚ)) }] }
        simp only [List.length_append, List.length_cons, List.length_nil] at h ⊢
        omega
      · have h := ih st
        simp only [List.length_cons]
        omega

/-- Step 4 keeps the open-position count within `max_positions`. -/
theorem processBuySignals_holdings_le (maxPos : ℕ) (d : ℤ) (sigs : List SignalInfo)
    (st : PState) (h : st.holdings.length ≤ maxPos) :
    (processBuySignals maxPos d sigs st).holdings.length ≤ maxPos := by
  unfold processBuySignals
  dsimp only
  have h1 := buyFold_holdings_length maxPos d
    (pySlice ((maxPos : ℤ) - st.holdings.length) (buyCandidatesOf sigs st.holdings)) st
  have h2 : (pySlice ((maxPos : ℤ) - st.holdings.length)
      (buyCandidatesOf sigs st.holdings)).length ≤ maxPos - st.holdings.length := by
    unfold pySlice
    rw [if_pos (by omega)]
    have h3 := List.length_take (((maxPos : ℤ) - st.holdings.length).toNat)
      (buyCandidatesOf sigs st.holdings)
    omega
  omega

/-- One simulated date preserves the bound and only records bounded
snapshots. -/
theorem portfolioDayStep_inv (cfg : Config) (sd : StockData) (vs : List String)
    (st : PState) (d : ℤ) (h1 : st.holdings.length ≤ 10)
    (h2 : ∀ s ∈ st.history, s.positions ≤ 10) :
    (portfolioDayStep cfg sd vs st d).holdings.length ≤ 10 ∧
    ∀ s ∈ (portfolioDayStep cfg sd vs st d).history, s.positions ≤ 10 := by
  have hfe : (forceExitSweep cfg d (collectSignals sd vs d) st).holdings.length ≤ 10 :=
    le_trans (List.length_filter_le _ _) h1
  have hs1 : (sellSweep cfg d (collectSignals sd vs d)
      (forceExitSweep cfg d (collectSignals sd vs d) st)).holdings.length ≤ 10 :=
    le_trans (List.length_filter_le _ _) hfe
  have hs2 : (processBuySignals 10 d (collectSignals sd vs d)
      (sellSweep cfg d (collectSignals sd vs d)
        (forceExitSweep cfg d (collectSignals sd vs d) st))).holdings.length ≤ 10 :=
    processBuySignals_holdings_le 10 d _ _ hs1
  have hhist : (processBuySignals 10 d (collectSignals sd vs d)
      (sellSweep cfg d (collectSignals sd vs d)
        (forceExitSweep cfg d (collectSignals sd vs d) st))).history = st.history := by
    unfold processBuySignals
    rw [buyFold_history]
    rfl
  refine ⟨hs2, ?_⟩
  intro s hs
  rcases List.mem_append.1 hs with hmem | hmem
  · rw [hhist] at hmem
    exact h2 s hmem
  · rcases List.mem_singleton.1 hmem with rfl
    exact hs2

/-- The whole dated loop keeps every snapshot's position count within 10. -/
theorem portfolioLoop_inv (cfg : Config) (capital : ℚ) (sd : StockData)
    (vs : List String) :
    (portfolioLoopState cfg capital sd vs).holdings.length ≤ 10 ∧
    ∀ s ∈ (portfolioLoopState cfg capital sd vs).history, s.positions ≤ 10 := by
  unfold portfolioLoopState
  have main : ∀ (dates : List ℤ) (st : PState),
      st.holdings.length ≤ 10 → (∀ s ∈ st.history, s.positions ≤ 10) →
      ((dates.foldl (portfolioDayStep cfg sd vs) st).holdings.length ≤ 10 ∧
       ∀ s ∈ (dates.foldl (portfolioDayStep cfg sd vs) st).history, s.positions ≤ 10) := by
    intro dates
    induction dates with
    | nil => intro st ha hb; exact ⟨ha, hb⟩
    | cons dd rest ih =>
      intro st ha hb
      rw [List.foldl_cons]
      obtain ⟨g1, g2⟩ := portfolioDayStep_inv cfg sd vs st dd ha hb
      exact ih _ g1 g2
  exact main _ _ (by simp) (by intro s hs; cases hs)

/-- Claim C5 (confirmed): in portfolio mode the open-position count recorded
in every snapshot never exceeds `max_positions = 10`, and the per-date buy
admissions never lift the holdings count above that bound. -/
theorem c5_open_positions_bounded (cfg : Config) (capital : ℚ) (sd : StockData)
    (vs : List String) (snap : Snapshot)
    (h : snap ∈ (execute_bnf_portfolio_backtest cfg capital sd vs).history) :
    snap.positions ≤ 10 := by
  unfold execute_bnf_portfolio_backtest at h
  dsimp only at h
  split at h
  · cases h
  · exact (portfolioLoop_inv cfg capital sd vs).2 snap h

unseal Rat.mul Rat.add Rat.inv Rat.sub in
/-- Witness for C5 at the concrete `sdHold` run's first snapshot. -/
theorem c5_witness :
    ({ date := 0, total_value := 10000, cash := 9000, stock_value := 1000,
       positions := 1, daily_trades := 1 } : Snapshot).positions ≤ 10 :=
  c5_open_positions_bounded balancedConfig 10000 sdHold ["A"] _ (by decide)

/-!
## Buy-admission policy (C6): reference definition from the spec's words
-/

/-- Reference definition following the spec's words (§4.5 step 4):
"candidates are all Flat symbols with a buy signal that are not already held;
sort ascending by RSI". -/
def specBuyCandidates (sigs : List SignalInfo) (holdings : List (String × Holding)) :
    List SignalInfo :=
  List.insertionSort rsiLE
    (sigs.filter (fun s => s.buySignal && (lookupHolding holdings s.symbol).isNone))

/-- Reference definition following the spec's words: "admit candidates in that
order until either `availableSlots` is exhausted or cash runs below a floor
(policy default $1,000).  Each admission sizes its position as
`investmentRatio × currentCash`, where `investmentRatio = min(0.2,
1/maxPositions)`; an admission is skipped if the resulting investment amount
is below the floor."  The slot counter decrements only on an actual
admission. -/
def specBuyFold (maxPos : ℕ) (d : ℤ) : List SignalInfo → ℕ → PState → PState
  | [], _, st => st
  | s :: rest, slots, st =>
    if slots = 0 then st
    else if st.cash < 1000 then st
    else if st.cash * min (1/5 : ℚ) (1 / (maxPos : ℚ)) ≥ 1000 then
      specBuyFold maxPos d rest (slots - 1)
        { st with
          cash := st.cash - st.cash * min (1/5 : ℚ) (1 / (maxPos : ℚ))
          holdings := st.holdings ++
            [(s.symbol,
              { shares := st.cash * min (1/5 : ℚ) (1 / (maxPos : ℚ)) / s.price,
                entry_date := d, entry_price := s.price })]
          trades := st.trades ++
            [{ date := d, symbol := s.symbol, action := .buy, price := s.price,
               shares := st.cash * min (1/5 : ℚ) (1 / (maxPos : ℚ)) / s.price,
               value := st.cash * min (1/5 : ℚ) (1 / (maxPos : ℚ)) }] }
    else specBuyFold maxPos d rest slots st

/-- The spec's step-4 admission phase, assembled from its words. -/
def specProcessBuySignals (maxPos : ℕ) (d : ℤ) (sigs : List SignalInfo) (st : PState) :
    PState :=
  specBuyFold maxPos d (specBuyCandidates sigs st.holdings)
    (maxPos - st.holdings.length) st

/-- Once the sized amount falls below the floor (while cash is at or above
it), no later candidate is admitted: the state is unchanged by the rest of the
code's admission loop. -/
theorem buyFold_stall (maxPos : ℕ) (d : ℤ) (st : PState)
    (h1 : ¬st.cash < 1000) (h2 : ¬st.cash * min (1/5 : ℚ) (1 / (maxPos : ℚ)) ≥ 1000) :
    ∀ l : List SignalInfo, buyFold maxPos d l st = st := by
  intro l
  induction l with
  | nil => rfl
  | cons s rest ih =>
    unfold buyFold
    rw [if_neg h1, if_neg h2]
    exact ih

/-- The same stalling property for the spec's admission loop. -/
theorem specBuyFold_stall (maxPos : ℕ) (d : ℤ) (st : PState)
    (h1 : ¬st.cash < 1000) (h2 : ¬st.cash * min (1/5 : ℚ) (1 / (maxPos : ℚ)) ≥ 1000) :
    ∀ (l : List SignalInfo) (slots : ℕ), specBuyFold maxPos d l slots st = st := by
  intro l
  induction l with
  | nil => intro slots; rfl
  | cons s rest ih =>
    intro slots
    unfold specBuyFold
    by_cases hz : slots = 0
    · rw [if_pos hz]
    · rw [if_neg hz, if_neg h1, if_neg h2]
      exact ih slots

/-- The code's slice-bounded loop coincides with the spec's slot-counting
loop: considering only the first `n` candidates equals admitting until `n`
slots are used, because a skipped candidate (amount below the floor) leaves
cash unchanged, so every later candidate is skipped as well. -/
theorem buyFold_take_eq_specBuyFold (maxPos : ℕ) (d : ℤ) :
    ∀ (l : List SignalInfo) (n : ℕ) (st : PState),
      buyFold maxPos d (l.take n) st = specBuyFold maxPos d l n st := by
  intro l
  induction l with
  | nil => intro n st; rw [List.take_nil]; rfl
  | cons s rest ih =>
    intro n st
    cases n with
    | zero => rfl
    | succ m =>
      rw [List.take_succ_cons]
      unfold buyFold specBuyFold
      rw [if_neg (by omega : ¬(m + 1 = 0))]
      by_cases h1 : st.cash < 1000
      · rw [if_pos h1, if_pos h1]
      · rw [if_neg h1, if_neg h1]
        by_cases h2 : st.cash * min (1/5 : ℚ) (1 / (maxPos : ℚ)) ≥ 1000
        · rw [if_pos h2, if_pos h2]
          rw [Nat.add_sub_cancel]
          exact ih m _
        · rw [if_neg h2, if_neg h2]
          rw [buyFold_stall maxPos d st h1 h2, specBuyFold_stall maxPos d st h1 h2]

/-- The Scenario-E portfolio state: maxPositions 2, one slot already used. -/
def scenarioEState : PState :=
  { cash := 10000,
    holdings := [("B", { shares := 5, entry_date := 0, entry_price := 100 })],
    trades := [], history := [] }

/-- Scenario-E candidate with RSI 25. -/
def demoSigA : SignalInfo :=
  { symbol := "A", price := 100, buySignal := true, sellSignal := false, rsi := 25,
    williamsR := -50, volumeFrac := 2 }

/-- Scenario-E candidate with RSI 40. -/
def demoSigC : SignalInfo :=
  { symbol := "C", price := 100, buySignal := true, sellSignal := false, rsi := 40,
    williamsR := -50, volumeFrac := 2 }

unseal Rat.mul Rat.add Rat.inv Rat.sub in
/-- Claim C6 (confirmed): whenever the open-position count is within
`maxPositions` (an invariant of the simulator, see C5), the code's admission
step is extensionally the spec's policy: candidates sorted ascending by RSI,
admissions until slots are exhausted or cash drops below the $1,000 floor,
each sized `min(0.2, 1/maxPositions) × current cash` and skipped below the
floor.  The candidate list is RSI-sorted, and in Scenario E (maxPositions 2,
one slot left, candidates with RSI 25 and 40 arriving unsorted) the RSI-25
candidate is admitted and the RSI-40 one is rejected. -/
theorem c6_buy_admission_policy :
    (∀ (maxPos : ℕ) (d : ℤ) (sigs : List SignalInfo) (st : PState),
        st.holdings.length ≤ maxPos →
        processBuySignals maxPos d sigs st = specProcessBuySignals maxPos d sigs st) ∧
    (∀ (sigs : List SignalInfo) (holdings : List (String × Holding)),
        List.Sorted rsiLE (buyCandidatesOf sigs holdings)) ∧
    ((processBuySignals 2 0 [demoSigC, demoSigA] scenarioEState).holdings.map
        (fun p => p.1) = ["B", "A"] ∧
     (processBuySignals 2 0 [demoSigC, demoSigA] scenarioEState).trades.map
        (·.symbol) = ["A"] ∧
     (processBuySignals 2 0 [demoSigC, demoSigA] scenarioEState).cash = 8000) := by
  refine ⟨?_, ?_, by decide⟩
  · intro maxPos d sigs st h
    unfold processBuySignals specProcessBuySignals
    dsimp only
    have hslice : pySlice ((maxPos : ℤ) - st.holdings.length)
        (buyCandidatesOf sigs st.holdings) =
        (buyCandidatesOf sigs st.holdings).take (maxPos - st.holdings.length) := by
      unfold pySlice
      rw [if_pos (by omega)]
      congr 1
      omega
    rw [hslice]
    exact buyFold_take_eq_specBuyFold maxPos d _ _ st
  · intro sigs holdings
    exact List.sorted_insertionSort rsiLE _

unseal Rat.mul Rat.add Rat.inv Rat.sub in
/-- Witness for C6 at the Scenario-E inputs. -/
theorem c6_witness :
    processBuySignals 2 0 [demoSigC, demoSigA] scenarioEState =
      specProcessBuySignals 2 0 [demoSigC, demoSigA] scenarioEState ∧
    List.Sorted rsiLE (buyCandidatesOf [demoSigC, demoSigA] scenarioEState.holdings) :=
  ⟨c6_buy_admission_policy.1 2 0 [demoSigC, demoSigA] scenarioEState (by decide),
   c6_buy_admission_policy.2.1 [demoSigC, demoSigA] scenarioEState.holdings⟩

/-!
## Holding-day bound (C1)
-/

/-- The analyzer's fold state over a ledger prefix. -/
def analyzerState (trades : List Trade) : Option Trade × List CompletedTrade :=
  trades.foldl analyzeStep (none, [])

/-- `analyze_bnf_trades` is the pair component of the analyzer state. -/
theorem analyze_eq_analyzerState (tr : List Trade) :
    analyze_bnf_trades tr = (analyzerState tr).2 := rfl

/-- Appending one trade advances the analyzer state by one step. -/
theorem analyzerState_append (tr : List Trade) (t : Trade) :
    analyzerState (tr ++ [t]) = analyzeStep (analyzerState tr) t :=
  List.foldl_concat _ _ _ _

/-- A BUY trade replaces the pending buy. -/
theorem analyzeStep_buy (p : Option Trade × List CompletedTrade) (t : Trade)
    (h : t.action = .buy) : analyzeStep p t = (some t, p.2) := by
  unfold analyzeStep
  rw [if_pos h]

/-- A SELL_SIGNAL/SELL_TIME trade closes the pending buy into a pair. -/
theorem analyzeStep_pair (bt : Trade) (acc : List CompletedTrade) (t : Trade)
    (hne : t.action ≠ .buy) (hmem : t.action = .sellSignal ∨ t.action = .sellTime) :
    analyzeStep (some bt, acc) t = (none, acc ++ [pairOf bt t]) := by
  unfold analyzeStep
  rw [if_neg hne]
  dsimp only
  rw [if_pos hmem]

/-- The buy branch of the loop body, characterized. -/
theorem bnfStep_buy_spec (cfg : Config) (st : ExecState) (row : XRow) (price : ℚ)
    (hcl : row.close = some price) (hb : row.buySignal = true)
    (hpos : st.position = false) (hcash : st.cash > 0) :
    ∃ t : Trade, (bnfStep cfg st row).trades = st.trades ++ [t] ∧
      t.action = .buy ∧ t.date = row.date ∧
      (bnfStep cfg st row).position = true ∧
      (bnfStep cfg st row).entry_date = some row.date := by
  unfold bnfStep
  rw [hcl]
  dsimp only
  have hcond : (row.buySignal && !st.position && decide (st.cash > 0)) = true := by
    rw [hb, hpos]
    simp [hcash]
  rw [if_pos hcond]
  exact ⟨_, rfl, rfl, rfl, rfl, rfl⟩

/-- The sell branch of the loop body, characterized. -/
theorem bnfStep_sell_spec (cfg : Config) (st : ExecState) (row : XRow) (price : ℚ)
    (hcl : row.close = some price) (hpos : st.position = true)
    (hsell : (row.sellSignal || forceOf cfg st row) = true) :
    ∃ t : Trade, (bnfStep cfg st row).trades = st.trades ++ [t] ∧
      (t.action = .sellSignal ∨ t.action = .sellTime) ∧ t.action ≠ .buy ∧
      t.date = row.date ∧ (bnfStep cfg st row).position = false := by
  unfold bnfStep
  rw [hcl]
  dsimp only
  rw [hpos]
  rw [if_neg (by simp)]
  rw [if_pos (by rw [Bool.true_and]; exact hsell)]
  refine ⟨_, rfl, ?_, ?_, rfl, rfl⟩
  · cases forceOf cfg st row <;> simp
  · cases forceOf cfg st row <;> simp

/-- The no-transition branch of the loop body, characterized. -/
theorem bnfStep_idle_spec (cfg : Config) (st : ExecState) (row : XRow) (price : ℚ)
    (hcl : row.close = some price)
    (hbuyF : (row.buySignal && !st.position && decide (st.cash > 0)) = false)
    (hsellF : (st.position && (row.sellSignal || forceOf cfg st row)) = false) :
    bnfStep cfg st row = pushEquity st row.date price := by
  unfold bnfStep
  rw [hcl]
  dsimp only
  rw [if_neg (by rw [hbuyF]; exact Bool.false_ne_true),
    if_neg (by rw [hsellF]; exact Bool.false_ne_true)]

/-- The forced-exit flag under a held position. -/
theorem forceOf_eq (cfg : Config) (st : ExecState) (row : XRow) (e : ℤ)
    (hpos : st.position = true) (he : st.entry_date = some e) :
    forceOf cfg st row = decide (row.date - e ≥ cfg.max_holding_days) := by
  unfold forceOf
  rw [hpos, he]

/-- The loop invariant for the holding-day bound at the date `d` of the next
row to be processed: all completed pairs are within `[0, M]`; while held, the
entry date matches the analyzer's pending buy and is at most `M` days old;
while flat there is no pending buy. -/
def holdInv (M d : ℤ) (st : ExecState) : Prop :=
  (∀ p ∈ (analyzerState st.trades).2, 0 ≤ p.holding_days ∧ p.holding_days ≤ M) ∧
  (st.position = true →
    ∃ e bt, st.entry_date = some e ∧ (analyzerState st.trades).1 = some bt ∧
      bt.date = e ∧ 0 ≤ d - e ∧ d - e ≤ M) ∧
  (st.position = false → (analyzerState st.trades).1 = none)

/-- One valid row at the invariant's date preserves the invariant at the next
calendar day. -/
theorem holdInv_step (cfg : Config) (st : ExecState) (row : XRow)
    (hM : 1 ≤ cfg.max_holding_days) (hcl : row.close.isSome)
    (hinv : holdInv cfg.max_holding_days row.date st) :
    holdInv cfg.max_holding_days (row.date + 1) (bnfStep cfg st row) := by
  obtain ⟨price, hprice⟩ := Option.isSome_iff_exists.1 hcl
  obtain ⟨hpairs, hheld, hflat⟩ := hinv
  cases hpos : st.position with
  | false =>
    have hpend := hflat hpos
    by_cases hbuy : (row.buySignal && !st.position && decide (st.cash > 0)) = true
    · have hbuy' := hbuy
      simp only [Bool.and_eq_true, Bool.not_eq_true', decide_eq_true_eq] at hbuy'
      obtain ⟨⟨hb1, _⟩, hb3⟩ := hbuy'
      obtain ⟨t, htr, hact, htd, hpos', hentry⟩ :=
        bnfStep_buy_spec cfg st row price hprice hb1 hpos hb3
      have hA : analyzerState (bnfStep cfg st row).trades =
          (some t, (analyzerState st.trades).2) := by
        rw [htr, analyzerState_append, analyzeStep_buy _ _ hact]
      refine ⟨?_, ?_, ?_⟩
      · intro p hp
        rw [hA] at hp
        exact hpairs p hp
      · intro _
        exact ⟨row.date, t, hentry, by rw [hA], htd, by omega, by omega⟩
      · intro h
        rw [hpos'] at h
        cases h
    · have hbuyF : (row.buySignal && !st.position && decide (st.cash > 0)) = false := by
        revert hbuy
        cases row.buySignal && !st.position && decide (st.cash > 0) <;> simp
      have hsellF : (st.position && (row.sellSignal || forceOf cfg st row)) = false := by
        rw [hpos]
        rfl
      rw [bnfStep_idle_spec cfg st row price hprice hbuyF hsellF]
      refine ⟨?_, ?_, ?_⟩
      · intro p hp
        exact hpairs p hp
      · intro h
        rw [show (pushEquity st row.date price).position = st.position from rfl, hpos] at h
        cases h
      · intro _
        exact hpend
  | true =>
    obtain ⟨e, bt, he, hbt, hbtd, h0, hMd⟩ := hheld hpos
    by_cases hsell : (row.sellSignal || forceOf cfg st row) = true
    · obtain ⟨t, htr, hact, hne, htd, hpos'⟩ :=
        bnfStep_sell_spec cfg st row price hprice hpos hsell
      have hx : analyzerState st.trades = (some bt, (analyzerState st.trades).2) := by
        rw [← hbt]
      have hA : analyzerState (bnfStep cfg st row).trades =
          (none, (analyzerState st.trades).2 ++ [pairOf bt t]) := by
        rw [htr, analyzerState_append, hx, analyzeStep_pair bt _ t hne hact]
      refine ⟨?_, ?_, ?_⟩
      · intro p hp
        rw [hA] at hp
        rcases List.mem_append.1 hp with hmem | hmem
        · exact hpairs p hmem
        · rcases List.mem_singleton.1 hmem with rfl
          have hdays : (pairOf bt t).holding_days = row.date - e := by
            show t.date - bt.date = row.date - e
            rw [htd, hbtd]
          rw [hdays]
          exact ⟨h0, hMd⟩
      · intro h
        rw [hpos'] at h
        cases h
      · intro _
        rw [hA]
    · have hsell' : (row.sellSignal || forceOf cfg st row) = false := by
        revert hsell
        cases row.sellSignal || forceOf cfg st row <;> simp
      have hforce : forceOf cfg st row = false := (Bool.or_eq_false_iff.1 hsell').2
      have hlt : row.date - e < cfg.max_holding_days := by
        rw [forceOf_eq cfg st row e hpos he] at hforce
        simpa using hforce
      have hbuyF : (row.buySignal && !st.position && decide (st.cash > 0)) = false := by
        rw [hpos]
        simp
      have hsellF : (st.position && (row.sellSignal || forceOf cfg st row)) = false := by
        rw [hpos, Bool.true_and]
        exact hsell'
      rw [bnfStep_idle_spec cfg st row price hprice hbuyF hsellF]
      refine ⟨?_, ?_, ?_⟩
      · intro p hp
        exact hpairs p hp
      · intro _
        exact ⟨e, bt, he, hbt, hbtd, by omega, by omega⟩
      · intro h
        rw [show (pushEquity st row.date price).position = st.position from rfl, hpos] at h
        cases h

/-- `rows` carries consecutive calendar dates starting at `d`. -/
def datesFrom : ℤ → List XRow → Prop
  | _, [] => True
  | d, r :: rest => r.date = d ∧ datesFrom (d + 1) rest

/-- `datesFrom` is decidable (used by concrete witnesses). -/
def datesFromDec : (d : ℤ) → (rows : List XRow) → Decidable (datesFrom d rows)
  | _, [] => .isTrue trivial
  | d, r :: rest =>
    haveI := datesFromDec (d + 1) rest
    inferInstanceAs (Decidable (r.date = d ∧ datesFrom (d + 1) rest))

instance (d : ℤ) (rows : List XRow) : Decidable (datesFrom d rows) := datesFromDec d rows

/-- Folding consecutive valid rows from an invariant-satisfying state keeps
every completed pair within the bound. -/
theorem holdInv_run (cfg : Config) (hM : 1 ≤ cfg.max_holding_days) :
    ∀ (rows : List XRow) (d : ℤ) (st : ExecState),
      datesFrom d rows → (∀ r ∈ rows, r.close.isSome) →
      holdInv cfg.max_holding_days d st →
      ∀ p ∈ (analyzerState (rows.foldl (bnfStep cfg) st).trades).2,
        0 ≤ p.holding_days ∧ p.holding_days ≤ cfg.max_holding_days := by
  intro rows
  induction rows with
  | nil => intro d st _ _ hinv p hp; exact hinv.1 p hp
  | cons r rest ih =>
    intro d st hdates hcl hinv
    obtain ⟨hd, hrest⟩ := hdates
    subst hd
    rw [List.foldl_cons]
    exact ih (r.date + 1) _ hrest
      (fun x hx => hcl x (List.mem_cons_of_mem _ hx))
      (holdInv_step cfg st r hM (hcl r (List.mem_cons_self _ _)) hinv)

/-- Claim C1 (corrected/amended).  What does hold: every completed pair has a
non-negative holding-day count, and when the processed rows carry consecutive
calendar dates with no NaN closes, the count also never exceeds
`max_holding_days` (for any positive bound).  Without consecutive dates the
upper bound fails — see `c1_counterexample`, where a calendar gap lets a
completed pair hold for 4 days against the 3-day limit. -/
theorem c1_holding_days_bounded (cfg : Config) (capital : ℚ) (rows : List XRow)
    (d : ℤ) (hM : 1 ≤ cfg.max_holding_days) (hdates : datesFrom d rows)
    (hcl : ∀ r ∈ rows, r.close.isSome) :
    ∀ p ∈ analyze_bnf_trades (execute_bnf_backtest cfg capital rows).trades,
      0 ≤ p.holding_days ∧ p.holding_days ≤ cfg.max_holding_days := by
  intro p hp
  have hsettle : analyze_bnf_trades (execute_bnf_backtest cfg capital rows).trades =
      analyze_bnf_trades (bnfLoop cfg capital rows).trades := by
    unfold execute_bnf_backtest bnfSettle
    split
    · split
      · split
        · exact analyze_append_sellFinal _ _ rfl
        · rfl
      · rfl
    · rfl
  rw [hsettle] at hp
  have hinit : holdInv cfg.max_holding_days d (initExecState capital) := by
    refine ⟨?_, ?_, ?_⟩
    · intro q hq
      cases hq
    · intro h
      cases h
    · intro _
      rfl
  exact holdInv_run cfg hM rows d (initExecState capital) hdates hcl hinit p hp

unseal Rat.mul Rat.add Rat.inv Rat.sub in
/-- Counterexample to C1 as stated: the `barsDecline` run (one holiday gap in
the calendar) completes exactly one Buy→Sell pair, whose holding-day count is
4 — strictly above `max_holding_days = 3`. -/
theorem c1_counterexample :
    (runSingle balancedConfig 10000 barsDecline).map
      (fun res => (analyze_bnf_trades res.trades).map (fun p => p.holding_days)) =
      some [4] ∧
    ¬((4 : ℤ) ≤ balancedConfig.max_holding_days) := by
  decide

/-- Five consecutive-date valid rows: a buy on date 0, no sell signals, so the
position is force-closed on date 3. -/
def demoRowsC1 : List XRow :=
  [{ date := 0, close := some 100, buySignal := true, sellSignal := false,
     rsi := F.nan, williamsR := F.nan, ema25 := 1 },
   { date := 1, close := some 100, buySignal := false, sellSignal := false,
     rsi := F.nan, williamsR := F.nan, ema25 := 1 },
   { date := 2, close := some 100, buySignal := false, sellSignal := false,
     rsi := F.nan, williamsR := F.nan, ema25 := 1 },
   { date := 3, close := some 100, buySignal := false, sellSignal := false,
     rsi := F.nan, williamsR := F.nan, ema25 := 1 },
   { date := 4, close := some 100, buySignal := false, sellSignal := false,
     rsi := F.nan, williamsR := F.nan, ema25 := 1 }]

/-- The completed pair of the `demoRowsC1` run. -/
def demoPairC1 : CompletedTrade :=
  (analyze_bnf_trades (execute_bnf_backtest balancedConfig 10000 demoRowsC1).trades).getD 0
    { entry_date := 0, exit_date := 0, entry_price := 0, exit_price := 0,
      profit_pct := 0, holding_days := 0, exit_reason := .buy, is_winning := false }

unseal Rat.mul Rat.add Rat.inv Rat.sub in
/-- Witness for C1 (amended) at the concrete consecutive-date run. -/
theorem c1_witness :
    0 ≤ demoPairC1.holding_days ∧
    demoPairC1.holding_days ≤ balancedConfig.max_holding_days :=
  c1_holding_days_bounded balancedConfig 10000 demoRowsC1 0 (by decide) (by decide)
    (by decide) demoPairC1 (by decide)

end BNF
